import Mathlib

/-!
The `elapsed` command-line stopwatch (`src/elapsed.c`).

A shallow embedding of `elapsed.c` and theorems about it.

Modelling conventions.

* A C string is a Lean `String` holding the characters before the terminating NUL; one `Char`
  stands for one C `char`.  A `char *` that may be `NULL` is an `Option String`.
* `long` and `long long` are 64-bit two's-complement integers (LP64), carried as `Int` values in
  the range `-2^63 ≤ x < 2^63`; the two additive operations that can leave the range
  (`tv_sec * 1000 + ms` in `now`, `now() - startTime` in `showTimer`) are reduced by `wrap64`.
  `/` and `%` of C are `Int.tdiv` and `Int.tmod` (truncation toward zero).
* The process runs against a `World`: the file system (regular files only, a map from path to
  contents), which paths `fopen(_, "w")` can open, which files `fopen(_, "r")` can open and
  `remove` can unlink, the host byte order, the real-time clock (one `Timespec` per call of
  `clock_gettime`), standard output, and the two global buffers `timer` and `newline` of the
  program.
* Every branch of the source is present.  `fopen(_, "w")` succeeds exactly on the paths the
  world marks writable, `fopen(_, "r")` exactly on the existing files it marks readable, and
  `remove`, whose result the source ignores, unlinks the file exactly on the paths it marks
  removable.  `fwrite`, `fclose` and `printf`, whose results the source ignores as well, behave
  as on success.
* The store is keyed by the path string that the program hands to the library.  Which path
  strings name one file is the matter of pathname resolution (`resolvedPath`).
* `exit(n)` ends the run: an `Outcome` is either a normal return with a value, or an exit with a
  status, each with the world reached; `undefined` marks a run that overruns a buffer.
-/

namespace Elapsed

/-! ## Constants (`#define`s, lines 39-46) -/

def DEFAULTTIMER : String := "timer$tart"
def TIMEREXTENSION : String := "elapsed"
def DEFAULTPATH : String := "/tmp"
def STATICRETURNBUFFERS : Nat := 3
def MAXTIMERNAME : Nat := 2048
def MAXINPUTLENGTH : Nat := 64
def COPYRIGHT : String := "2021"
def RELEASE : String := "1.0"

/-! ## Machine integers and object representation -/

/-- Reduction of an integer to the 64-bit two's-complement range `[-2^63, 2^63)`. -/
def wrap64 (x : Int) : Int := (x + 2 ^ 63) % 2 ^ 64 - 2 ^ 63

/-- A value lies in the range of `long long`. -/
def inInt64 (x : Int) : Prop := -(2 ^ 63) ≤ x ∧ x < 2 ^ 63

instance (x : Int) : Decidable (inInt64 x) := by unfold inInt64; infer_instance

abbrev Byte := Fin 256

/-- The `k` low-order bytes of `n`, least significant first. -/
def toLE : Nat → Nat → List Byte
  | 0, _ => []
  | k + 1, n => Fin.ofNat (n % 256) :: toLE k (n / 256)

/-- The number whose little-endian bytes are given. -/
def ofLE : List Byte → Nat
  | [] => 0
  | b :: bs => b.val + 256 * ofLE bs

/-- The 8 bytes of the object representation of a `long long` in the host byte order
(what `fwrite(&t, 8, 1, fp)` writes). -/
def objectBytes (bigEndian : Bool) (t : Int) : List Byte :=
  let le := toLE 8 (t % 2 ^ 64).toNat
  if bigEndian then le.reverse else le

/-- The `long long` whose object representation is the given bytes
(what `fread(&t, 8, 1, fp)` stores in `t`). -/
def objectValue (bigEndian : Bool) (bytes : List Byte) : Int :=
  wrap64 (ofLE (if bigEndian then bytes.reverse else bytes))

/-! ## `printf` conversions -/

/-- The conversion `%0<width>ld` / `%0<width>lld` of `printf` (`width = 0` is plain `%ld`): an
optional minus sign, then the decimal digits, zero-padded on the left so that sign and digits
together fill at least `width` columns.  (`%'ld`, used for the days, is `%ld` in the "C" locale,
which is the locale of a program that never calls `setlocale`.) -/
def printfD (width : Nat) (v : Int) : String :=
  let sign := if v < 0 then "-" else ""
  let digits := Nat.repr v.natAbs
  sign ++ String.mk (List.replicate (width - (sign.length + digits.length)) '0') ++ digits

/-! ## The world -/

/-- The result of `clock_gettime`. -/
structure Timespec where
  tv_sec : Int
  tv_nsec : Int

/-- The environment of a run together with the global variables of the program. -/
structure World where
  /-- The regular files: contents by path. -/
  files : String → Option (List Byte)
  /-- The paths that `fopen(path, "w")` can open (create or truncate). -/
  writable : String → Bool
  /-- The paths whose file, when there is one, `fopen(path, "r")` can open. -/
  readable : String → Bool
  /-- The paths whose file, when there is one, `remove(path)` can unlink. -/
  removable : String → Bool
  /-- The host byte order. -/
  bigEndian : Bool
  /-- The successive results of `clock_gettime(CLOCK_REALTIME, _)`. -/
  clock : Nat → Timespec
  /-- How many times the clock has been read. -/
  ticks : Nat
  /-- Standard output so far. -/
  out : String
  /-- The global `char timer[MAXTIMERNAME + 2]` (line 48). -/
  timer : String
  /-- The global `char newline[3]` (line 49). -/
  newline : String

/-- How a call ends. -/
inductive Outcome (α : Type) where
  /-- Normal return with a value. -/
  | ret : α → World → Outcome α
  /-- The process ended in `exit(status)`. -/
  | exit : Int → World → Outcome α
  /-- A buffer was overrun: the C standard gives the run no meaning. -/
  | undefined : Outcome α

/-- File system after the file at `path` has been unlinked. -/
def removeFile (files : String → Option (List Byte)) (path : String) :
    String → Option (List Byte) :=
  fun p => if p = path then none else files p

/-- File system after `path` has been created or truncated and `bytes` written to it. -/
def writeFile (files : String → Option (List Byte)) (path : String) (bytes : List Byte) :
    String → Option (List Byte) :=
  fun p => if p = path then some bytes else files p

/-- Appending to standard output (`printf`). -/
def World.print (w : World) (s : String) : World := { w with out := w.out ++ s }

/-- The world after `remove(path)`, the result of which the source ignores: the file is
unlinked where the caller may remove it, and stays otherwise. -/
def World.remove (w : World) (path : String) : World :=
  if w.removable path then { w with files := removeFile w.files path } else w

/-- What `fopen(path, "r")` gives access to: the contents of an existing file that the caller
may read, and nothing when it returns `NULL`. -/
def World.openRead (w : World) (path : String) : Option (List Byte) :=
  if w.readable path then w.files path else none

/-- The test `name && name[0]`. -/
def nonEmpty : Option String → Bool
  | some s => !s.data.isEmpty
  | none => false

/-- The `%s` argument `name` after the test `name && name[0]` has passed. -/
def nameText : Option String → String
  | some s => s
  | none => ""

/-! ## `upcase` (lines 56-67) -/

/-- Upper-cases a string into one of the static buffers `up[buf]` of `MAXINPUTLENGTH + 2`
characters; a longer input runs over the buffer. -/
def upcase (str : Option String) : Option String :=
  match str with
  | none => some ""
  | some s =>
    if s.length + 1 ≤ MAXINPUTLENGTH + 2 then some (String.mk (s.data.map Char.toUpper)) else none

/-! ## `now` (lines 75-82) -/

/-- The value of `round(tv_nsec / 1.0e6)`: the quotient to the nearest integer, halves away from
zero.  (The double quotient is correctly rounded and every half-integer here is a double, so the
floating-point computation yields exactly this integer.) -/
def roundMs (tv_nsec : Int) : Int :=
  if 0 ≤ tv_nsec then (tv_nsec + 500000) / 1000000 else -((500000 - tv_nsec) / 1000000)

/-- The clock reading in milliseconds computed from one `Timespec`. -/
def nowOf (spec : Timespec) : Int := wrap64 (spec.tv_sec * 1000 + roundMs spec.tv_nsec)

/-- Current date-time in milliseconds; reading the clock advances it. -/
def now (w : World) : Int × World :=
  (nowOf (w.clock w.ticks), { w with ticks := w.ticks + 1 })

/-! ## `timerName` (lines 91-116) -/

/-- Generates the start-timer path/name in the static buffer `filename`. -/
def timerName (name : Option String) : String :=
  let filename :=
    if nonEmpty name then
      if (nameText name).data.head? = some '/' then
        nameText name
      else
        DEFAULTPATH ++ "/" ++ nameText name
    else
      DEFAULTPATH ++ "/" ++ DEFAULTTIMER
  filename ++ "." ++ TIMEREXTENSION

/-- The capacity of the static buffer `filename` of `timerName`, terminator included. -/
def filenameCapacity : Nat := MAXTIMERNAME + 64

/-! ## `timerExists` (lines 122-134) -/

/-- Checks for start-timer existence and basic validity: `stat` the path; on a file whose
size is not 8, `remove` is called and the process exits with status 3. -/
def timerExists (name : Option String) (w : World) : Outcome Bool :=
  match w.files (timerName name) with
  | none => .ret false w
  | some bytes =>
    if bytes.length ≠ 8 then
      .exit 3 ((w.remove (timerName name)).print
        ((if nonEmpty name then nameText name else "default") ++ " start-timer found but is "
          ++ (if bytes.length = 0 then "empty" else "corrupted") ++ ". Timer removed.\n"))
    else
      .ret true w

/-! ## `startTimer` (lines 140-149) -/

/-- Starts or restarts the timer: reads the clock, then writes the 8 bytes of the reading when
the file can be opened for writing. -/
def startTimer (name : Option String) (w : World) : Outcome Unit :=
  let (t, w1) := now w
  if w1.writable (timerName name) then
    .ret () { w1 with files := writeFile w1.files (timerName name) (objectBytes w1.bigEndian t) }
  else
    .ret () w1

/-! ## `getTimer` (lines 155-177) -/

/-- Returns the value from the start-timer. -/
def getTimer (name : Option String) (w : World) : Outcome Int :=
  match timerExists name w with
  | .undefined => .undefined
  | .exit status w1 => .exit status w1
  | .ret true w1 =>
    match w1.openRead (timerName name) with
    | some bytes =>
      if 8 ≤ bytes.length then
        .ret (objectValue w1.bigEndian (bytes.take 8)) w1
      else
        .ret 0 w1
    | none => .ret 0 w1
  | .ret false w1 =>
    if nonEmpty name then
      .exit 2 (w1.print ("Timer named '" ++ nameText name ++ "' was not started.\n"))
    else
      .exit 2 (w1.print "Default (unnamed) timer was not started.\n")

/-! ## `showTimer` (lines 183-202) -/

/-- The values that `showTimer` computes from the elapsed time: the locals `seconds`,
`minutes`, `hours`, `days` of lines 191-194 and the argument `ms % 1000L` of line 201. -/
structure Breakdown where
  seconds : Int
  minutes : Int
  hours : Int
  days : Int
  millis : Int

/-- Lines 191-194, and `ms % 1000L` of line 201, for an elapsed time of `ms` milliseconds. -/
def breakdown (ms : Int) : Breakdown where
  seconds := (ms.tdiv 1000).tmod 60
  minutes := (ms.tdiv 60000).tmod 60
  hours := (ms.tdiv 3600000).tmod 24
  days := ms.tdiv 86400000
  millis := ms.tmod 1000

/-- The text of lines 191-201 for an elapsed time of `ms` milliseconds, up to and including
the word `seconds` (the `%s` for `newline` excluded). -/
def elapsedText (ms : Int) : String :=
  let seconds := (breakdown ms).seconds
  let minutes := (breakdown ms).minutes
  let hours := (breakdown ms).hours
  let days := (breakdown ms).days
  let o1 := if days > 0 then
      printfD 0 days ++ " day" ++ (if days = 1 then "" else "s") ++ " "
    else ""
  let o2 := if days > 0 ∨ hours > 0 then
      o1 ++ (printfD 0 hours ++ " hour" ++ (if hours = 1 then "" else "s") ++ " ")
    else o1
  let o3 := if days > 0 ∨ hours > 0 ∨ minutes > 0 then
      o2 ++ (printfD 0 minutes ++ " minute" ++ (if minutes = 1 then "" else "s") ++ " ")
    else o2
  o3 ++ (printfD 0 seconds ++ "." ++ printfD 3 (breakdown ms).millis ++ " seconds")

/-- Outputs the current elapsed time to stdout; a start time of 0 is reported and ends the
process with status 1. -/
def showTimer (startTime : Int) (w : World) : Outcome Unit :=
  if startTime = 0 then
    .exit 1 (w.print ("No start-time set" ++ (if w.timer.data.isEmpty then "" else " for ")
      ++ w.timer ++ "\n"))
  else
    let (t, w1) := now w
    let ms := wrap64 (t - startTime)
    .ret () (w1.print (elapsedText ms ++ w1.newline))

/-! ## `stopTimer` (lines 208-220) -/

/-- Stops the elapsed timer (calls `remove` on the start-time file). -/
def stopTimer (name : Option String) (w : World) : Outcome Unit :=
  match timerExists name w with
  | .undefined => .undefined
  | .exit status w1 => .exit status w1
  | .ret true w1 => .ret () (w1.remove (timerName name))
  | .ret false w1 =>
    if nonEmpty name then
      .exit 2 (w1.print ("Timer named '" ++ nameText name ++ "' was not found.\n"))
    else
      .exit 2 (w1.print "Default (unnamed) timer was not found.\n")

/-! ## `showHelp` (lines 226-253) -/

/-- The help message, with `RELEASE` and `COPYRIGHT` substituted for the two `%s`. -/
def helpText : String :=
  "\nelapsed v" ++ RELEASE ++ " (c) " ++ COPYRIGHT ++ " The Code Reserve. All rights reserved.\n"
  ++ "  Usage: elapsed ACTION [NAME]\n"
  ++ "  ACTIONS:\n"
  ++ "    start [timer]   Set start time (with optional named timer).\n"
  ++ "    show [timer]    Output intermediate/final elapsed time (using named timer\n"
  ++ "                    if defined at start).\n"
  ++ "    stop [timer]    Optionally, stop (remove) previously started, optionally\n"
  ++ "                    named, timer.\n"
  ++ "  OPTIONS:\n"
  ++ "    -h, --help      Output this help message.\n"
  ++ "    -n              Do not output the trailing newline character with show\n"
  ++ "                    action.\n"
  ++ "    -r              When used with the show action and following the elapsed\n"
  ++ "                    output, this will cause the timer to restart for the\n"
  ++ "                    next show action.\n"
  ++ "  OUTPUT FORMAT:\n"
  ++ "    [0 days ][0 hours ][0 minutes ]0.000 seconds\n"
  ++ "    Examples:       1 minute 48.043 seconds\n"
  ++ "                    1 day 0 hours 17 minutes 54.941 seconds\n"
  ++ "  SEE ALSO:\n"
  ++ "    Documentation & code: https://github.com/codereserve/elapsed\n"
  ++ "  AUTHOR:\n"
  ++ "    Creator: Jesse R Luckett, The Code Reserve, codereserve.com.\n"

/-- Outputs the help message and exits with status 1. -/
def showHelp {α : Type} (w : World) : Outcome α := .exit 1 (w.print helpText)

/-! ## `main` (lines 259-355) -/

/-- Sequencing of two steps of a run: the second runs only when the first returns. -/
def Outcome.bind {α β : Type} (o : Outcome α) (f : α → World → Outcome β) : Outcome β :=
  match o with
  | .ret a w => f a w
  | .exit status w => .exit status w
  | .undefined => .undefined

/-- The exit status of the process, when the run has one: the argument of `exit`, or the value
returned from `main`. -/
def Outcome.status : Outcome Int → Option Int
  | .ret v _ => some v
  | .exit status _ => some status
  | .undefined => none

/-- The world in which a run ended. -/
def Outcome.world {α : Type} : Outcome α → Option World
  | .ret _ w => some w
  | .exit _ w => some w
  | .undefined => none

/-- The local variables of `main` that outlive the argument loop. -/
structure Locals where
  cmd : String
  restart : Bool

/-- The loop of lines 283-301 over the characters of a short-option argument after its `-`;
returns the value of `restart`. -/
def parseShortOptions : List Char → Bool → World → Outcome Bool
  | [], restart, w => .ret restart w
  | c :: cs, restart, w =>
    if c = 'n' then parseShortOptions cs restart { w with newline := "" }
    else if c = 'r' then parseShortOptions cs true w
    else if c = '?' ∨ c = 'h' then showHelp w
    else .exit 1 (w.print ("Unexpected option: -" ++ String.singleton c
      ++ " (Terminated, see -h for help)\n"))

/-- The argument loop of lines 265-324 over `av[1], ..., av[ac-1]`. -/
def parseArgs : List String → Locals → World → Outcome Locals
  | [], l, w => .ret l w
  | a :: rest, l, w =>
    if a.data.head? = some '-' then
      if a.data.tail.head? = some '-' then
        if a = "--help" then showHelp w
        else .exit 1 (w.print ("Unexpected option: " ++ a ++ " (Terminated, see -h for help)\n"))
      else
        (parseShortOptions a.data.tail l.restart w).bind fun restart w1 =>
          parseArgs rest { l with restart := restart } w1
    else if l.cmd.data.isEmpty then
      -- `strncpy(cmd, upcase(av[arg]), MAXINPUTLENGTH)`
      match upcase (some a) with
      | some up => parseArgs rest { l with cmd := String.mk (up.data.take MAXINPUTLENGTH) } w
      | none => .undefined
    else if w.timer.data.isEmpty then
      -- `strncpy(timer, av[arg], MAXTIMERNAME)`
      parseArgs rest l { w with timer := String.mk (a.data.take MAXTIMERNAME) }
    else
      .exit 1 (w.print ("Unexpected argument: " ++ a ++ " (Terminated, see -h for help)\n"))

/-- The command dispatch of lines 333-353.  A `cmd` of `MAXINPUTLENGTH` characters fills the
array without a terminator: it differs from the three command words within their length, and
printing it with `%s` runs past the array. -/
def execute (cmd : String) (restart : Bool) (w : World) : Outcome Int :=
  if cmd = "START" then
    (startTimer (some w.timer) w).bind fun _ w1 => .ret 0 w1
  else if cmd = "SHOW" then
    (getTimer (some w.timer) w).bind fun startTime w1 =>
      (showTimer startTime w1).bind fun _ w2 =>
        if restart then
          (startTimer (some w2.timer) w2).bind fun _ w3 => .ret 0 w3
        else
          .ret 0 w2
  else if cmd = "STOP" then
    (stopTimer (some w.timer) w).bind fun _ w1 => .ret 0 w1
  else if MAXINPUTLENGTH ≤ cmd.length then
    .undefined
  else
    .ret 0 (w.print ("Unknown command: " ++ cmd ++ " (Terminated, see -h for help)\n"))

/-- Command-line entry; `args` is `av[1], ..., av[ac-1]`, so `ac = args.length + 1`. -/
def main (args : List String) (w : World) : Outcome Int :=
  (parseArgs args { cmd := "", restart := false } w).bind fun l w1 =>
    if args.length + 1 < 2 then
      .exit 1 (w1.print "Argument(s) expected. See -h for help\n")
    else
      execute l.cmd l.restart w1

/-- The state of the global variables when the process starts. -/
def World.fresh (w : World) : Prop := w.timer = "" ∧ w.newline = "\n" ∧ w.out = ""

/-! ## Definitions used to state the properties -/

/-- The elapsed time `now() - startTime` that `showTimer` computes in world `w`. -/
def elapsedMs (startTime : Int) (w : World) : Int := wrap64 ((now w).1 - startTime)

/-- A number below 1000 written with exactly three decimal digits. -/
def threeDigits (m : Nat) : String :=
  String.mk [Nat.digitChar (m / 100 % 10), Nat.digitChar (m / 10 % 10), Nat.digitChar (m % 10)]

/-- A unit label: the word alone for the value 1, with an `s` otherwise. -/
def unitLabel (word : String) (v : Nat) : String := if v = 1 then word else word ++ "s"

/-- A day, hour or minute component: the value, a space, the label. -/
def unitComponent (word : String) (v : Nat) : String := Nat.repr v ++ " " ++ unitLabel word v

/-- The seconds component `<seconds>.<mmm> seconds` of an elapsed time of `ms` milliseconds. -/
def secondsComponent (ms : Nat) : String :=
  Nat.repr (ms / 1000 % 60) ++ "." ++ threeDigits (ms % 1000) ++ " seconds"

/-- The rendering rule of the duration formatter as the specification words it (section 4.4),
for a non-negative millisecond count: days, hours, minutes, seconds in this order, a unit
shown when it or a higher unit is non-zero, one space after each shown unit but the last. -/
def specRendering (ms : Nat) : String :=
  let days := ms / 86400000
  let hours := ms / 3600000 % 24
  let minutes := ms / 60000 % 60
  (if days > 0 then unitComponent "day" days ++ " " else "")
    ++ (if days > 0 ∨ hours > 0 then unitComponent "hour" hours ++ " " else "")
    ++ (if days > 0 ∨ hours > 0 ∨ minutes > 0 then unitComponent "minute" minutes ++ " " else "")
    ++ secondsComponent ms

/-- A world for concrete runs: no files, every path writable, readable and removable,
little-endian host, a clock that starts at 1700000000 s and advances by 1.0004 s per reading,
pristine globals. -/
def demoWorld : World where
  files := fun _ => none
  writable := fun _ => true
  readable := fun _ => true
  removable := fun _ => true
  bigEndian := false
  clock := fun k => { tv_sec := 1700000000 + k, tv_nsec := 400000 * k }
  ticks := 0
  out := ""
  timer := ""
  newline := "\n"

/-- The name begins with the character `c`. -/
def beginsWith (c : Char) (name : String) : Prop := ∃ rest : String, name = String.singleton c ++ rest

/-- The message of `timerExists` for a file of the wrong size (lines 128-130). -/
def corruptMessage (name : Option String) (bytes : List Byte) : String :=
  (if nonEmpty name then nameText name else "default") ++ " start-timer found but is "
    ++ (if bytes.length = 0 then "empty" else "corrupted") ++ ". Timer removed.\n"

/-- The message of `getTimer` for a timer without a file (lines 170-173). -/
def notStartedMessage (name : Option String) : String :=
  if nonEmpty name then "Timer named '" ++ nameText name ++ "' was not started.\n"
  else "Default (unnamed) timer was not started.\n"

/-- The message of `stopTimer` for a timer without a file (lines 214-217). -/
def notFoundMessage (name : Option String) : String :=
  if nonEmpty name then "Timer named '" ++ nameText name ++ "' was not found.\n"
  else "Default (unnamed) timer was not found.\n"

/-- The demo world with a 3-byte file at the path of the timer `foo`. -/
def corruptWorld : World :=
  { demoWorld with files := fun p => if p = "/tmp/foo.elapsed" then some [1, 2, 3] else none }

/-- The demo world after the arguments `show ghost` have been parsed: no file, `timer` holds
the name `ghost`. -/
def ghostWorld : World := { demoWorld with timer := "ghost" }

/-- The world of `corruptWorld` in which no path can be opened for writing (the 3-byte file
belongs to someone else). -/
def lockedWorld : World := { corruptWorld with writable := fun _ => false }

/-- The demo world with the valid timer file of the instant 1699999999001 at the path of the
timer `foo`, after the arguments `show foo` or `stop foo` have been parsed. -/
def startedWorld : World :=
  { demoWorld with
    files := fun p =>
      if p = "/tmp/foo.elapsed" then some (objectBytes false 1699999999001) else none
    timer := "foo" }

/-- The world of `startedWorld` in which no path can be opened for writing (the timer file
belongs to someone else and is read-only for this user). -/
def readOnlyWorld : World := { startedWorld with writable := fun _ => false }

/-- The demo world with a timer file of 8 zero bytes at the path of the timer `foo`, after the
arguments `show foo` have been parsed. -/
def zeroWorld : World :=
  { demoWorld with
    files := fun p => if p = "/tmp/foo.elapsed" then some [0, 0, 0, 0, 0, 0, 0, 0] else none
    timer := "foo" }

/-- The world right after `showTimer` has printed the time elapsed since `startTime`. -/
def afterPrint (startTime : Int) (w : World) : World :=
  (now w).2.print (elapsedText (elapsedMs startTime w) ++ w.newline)

/-- A result of `clock_gettime` on a host whose time in milliseconds fits 64 bits: nanoseconds
within one second. -/
def Timespec.wellFormed (a : Timespec) : Prop :=
  0 ≤ a.tv_nsec ∧ a.tv_nsec < 1000000000 ∧ inInt64 (a.tv_sec * 1000) ∧ inInt64 (a.tv_sec * 1000 + 1000)

instance (a : Timespec) : Decidable a.wellFormed := by unfold Timespec.wellFormed; infer_instance

/-- The clock did not go backward between the readings `a` and `b`. -/
def Timespec.notAfter (a b : Timespec) : Prop :=
  a.tv_sec < b.tv_sec ∨ (a.tv_sec = b.tv_sec ∧ a.tv_nsec ≤ b.tv_nsec)

instance (a b : Timespec) : Decidable (a.notAfter b) := by unfold Timespec.notAfter; infer_instance

/-- The rendering of a non-negative millisecond count with the unit labels written out: the
label of a shown day, hour or minute value is singular for the value 1 and plural for every
other value, 0 included; the seconds label is always ` seconds`. -/
def pluralRendering (ms : Nat) : String :=
  let days := ms / 86400000
  let hours := ms / 3600000 % 24
  let minutes := ms / 60000 % 60
  (if days > 0 then Nat.repr days ++ (if days = 1 then " day " else " days ") else "")
    ++ (if days > 0 ∨ hours > 0 then
          Nat.repr hours ++ (if hours = 1 then " hour " else " hours ") else "")
    ++ (if days > 0 ∨ hours > 0 ∨ minutes > 0 then
          Nat.repr minutes ++ (if minutes = 1 then " minute " else " minutes ") else "")
    ++ (Nat.repr (ms / 1000 % 60) ++ "." ++ threeDigits (ms % 1000) ++ " seconds")

/-- The demo world with the valid timer file of the instant 1700000005000, five seconds after
the first clock reading, at the path of the timer `foo`, after `show foo` has been parsed. -/
def futureWorld : World :=
  { demoWorld with
    files := fun p =>
      if p = "/tmp/foo.elapsed" then some (objectBytes false 1700000005000) else none
    timer := "foo" }

/-- The number that a list of decimal digit characters denotes. -/
def decimalValue (cs : List Char) : Nat :=
  cs.foldl (fun acc c => 10 * acc + (c.toNat - 48)) 0

/-- An argument that begins with `-` (line 268). -/
def isOption (a : String) : Bool := decide (a.data.head? = some '-')

/-- An option argument that the argument loop answers with the help text or with
`Unexpected option`: an argument that begins with `--` (`--help` or any other), or a group of
short options with a letter other than `n` and `r` (`h` and `?` ask for help, every other
letter is unknown). -/
def badOption (a : String) : Bool :=
  isOption a && (decide (a.data.tail.head? = some '-')
    || a.data.tail.any fun c => decide (c ≠ 'n') && decide (c ≠ 'r'))

/-- The arguments that are not options, in order. -/
def plainArgs (args : List String) : List String := args.filter fun a => !isOption a

/-- Some argument of `plain` comes after `2 - filled` non-empty ones. -/
def extraArgumentFrom : Nat → List String → Bool
  | _, [] => false
  | filled, a :: rest =>
    if 2 ≤ filled then true
    else extraArgumentFrom (if a.data.isEmpty then filled else filled + 1) rest

/-- Some non-option argument comes after two non-empty non-option arguments (the command and
the timer name). -/
def extraArgument (args : List String) : Bool := extraArgumentFrom 0 (plainArgs args)

/-- The command token: the first non-empty argument that is not an option. -/
def commandToken (args : List String) : Option String :=
  ((plainArgs args).filter fun a => !a.data.isEmpty).head?

/-- The upper-cased copy of a string. -/
def upperCased (s : String) : String := String.mk (s.data.map Char.toUpper)

/-- Two strings are equal under ASCII case folding. -/
def sameUnderCaseFolding (a b : String) : Prop :=
  a.data.map Char.toLower = b.data.map Char.toLower

instance (a b : String) : Decidable (sameUnderCaseFolding a b) := by
  unfold sameUnderCaseFolding; infer_instance

/-- The world with the `newline` buffer emptied (`newline[0] = 0`, the effect of `-n`). -/
def World.quiet (w : World) : World := { w with newline := "" }

/-- The number of the two slots `cmd` and `timer` that are already filled. -/
def filledSlots (l : Locals) (w : World) : Nat :=
  (if l.cmd.data.isEmpty then 0 else 1) + (if w.timer.data.isEmpty then 0 else 1)

/-- The environment of the run is untouched: files, write permissions, byte order, clock. -/
def World.sameEnvironment (w w1 : World) : Prop :=
  w1.files = w.files ∧ w1.writable = w.writable ∧ w1.bigEndian = w.bigEndian
    ∧ w1.clock = w.clock ∧ w1.ticks = w.ticks

/-- A command token of 64 characters, one more than `cmd` can hold with its terminator. -/
def longToken : String := String.mk (List.replicate 64 'x')

/-- The world of a process at its start, with the valid timer file of the instant
1699999999001 at the path of the timer `foo`. -/
def storedWorld : World := { startedWorld with timer := "" }

/-- The world of `corruptWorld` in which the 3-byte file is another user's file in a sticky
directory: it can be neither opened for writing nor removed. -/
def stickyWorld : World :=
  { corruptWorld with writable := fun _ => false, removable := fun _ => false }

/-- The world of `startedWorld` in which the valid timer file is another user's file in a
sticky directory: it can be read, but neither opened for writing nor removed. -/
def stickyStartedWorld : World :=
  { startedWorld with writable := fun _ => false, removable := fun _ => false }

/-- The demo world in which files can be created and written but not opened for reading
(a umask that withholds the read permission). -/
def writeOnlyWorld : World := { demoWorld with readable := fun _ => false }

/-- The pieces of a path between its slashes. -/
def pathComponents : List Char → List (List Char)
  | [] => [[]]
  | c :: cs =>
    match pathComponents cs with
    | [] => if c = '/' then [[], []] else [[c]]
    | piece :: pieces => if c = '/' then [] :: piece :: pieces else (c :: piece) :: pieces

/-- The file that an absolute path names under pathname resolution, symbolic links and `..`
left aside: the sequence of its components, where empty components (repeated slashes) and
components `.` do not count. -/
def resolvedPath (path : String) : List String :=
  ((pathComponents path.data).filter fun piece =>
    decide (piece ≠ []) && decide (piece ≠ ['.'])).map String.mk

/-- The rendering rule of the duration formatter (section 4.4) applied to the five values of a
breakdown: each of days, hours, minutes is shown when it or a higher unit is non-zero, then the
seconds and the three-digit milliseconds. -/
def tupleRendering (days hours minutes seconds millis : Nat) : String :=
  (if days > 0 then unitComponent "day" days ++ " " else "")
    ++ (if days > 0 ∨ hours > 0 then unitComponent "hour" hours ++ " " else "")
    ++ (if days > 0 ∨ hours > 0 ∨ minutes > 0 then unitComponent "minute" minutes ++ " " else "")
    ++ (Nat.repr seconds ++ "." ++ threeDigits millis ++ " seconds")

/-! ## Lemmas on the `printf` conversions -/

theorem printfD_zero_natCast (n : Nat) : printfD 0 (n : Int) = Nat.repr n := by
  have h : ¬ ((n : Int) < 0) := by omega
  simp [printfD, h, String.empty_append]

set_option maxRecDepth 1000000 in
theorem printfD_three_lt (m : Nat) (h : m < 1000) : printfD 3 (m : Nat) = threeDigits m := by
  revert m
  decide

theorem elapsedText_natCast (n : Nat) : elapsedText (n : Int) = specRendering n := by
  have hd : (n : Int).tdiv 86400000 = ((n / 86400000 : Nat) : Int) := by
    rw [Int.ofNat_tdiv]; rfl
  have hh : ((n : Int).tdiv 3600000).tmod 24 = ((n / 3600000 % 24 : Nat) : Int) := by
    rw [Int.ofNat_tmod, Int.ofNat_tdiv]; rfl
  have hm : ((n : Int).tdiv 60000).tmod 60 = ((n / 60000 % 60 : Nat) : Int) := by
    rw [Int.ofNat_tmod, Int.ofNat_tdiv]; rfl
  have hs : ((n : Int).tdiv 1000).tmod 60 = ((n / 1000 % 60 : Nat) : Int) := by
    rw [Int.ofNat_tmod, Int.ofNat_tdiv]; rfl
  have hf : (n : Int).tmod 1000 = ((n % 1000 : Nat) : Int) := by
    rw [Int.ofNat_tmod]; rfl
  have h3 : printfD 3 ((n % 1000 : Nat) : Int) = threeDigits (n % 1000) :=
    printfD_three_lt _ (Nat.mod_lt _ (by decide))
  simp only [elapsedText, breakdown, specRendering, secondsComponent, unitComponent, unitLabel,
    hd, hh, hm, hs, hf, h3, printfD_zero_natCast, gt_iff_lt, Nat.cast_pos, Nat.cast_eq_one]
  split_ifs <;> simp [String.append_assoc, String.empty_append, String.append_empty]

/-- With a non-zero start time `showTimer` reads the clock once, prints the elapsed text and the
`newline` buffer, and returns. -/
theorem showTimer_of_ne_zero (w : World) (startTime : Int) (hstart : startTime ≠ 0) :
    showTimer startTime w
      = .ret () ((now w).2.print (elapsedText (elapsedMs startTime w) ++ w.newline)) := by
  simp only [showTimer, if_neg hstart, elapsedMs]
  rfl

/-! ## C1: the rendering rule of `showTimer` -/

/-- C1. For a non-zero start time and a non-negative elapsed time `ms`, `showTimer` returns
normally after printing exactly the rendering the specification describes for `ms`: the day
component iff `days > 0`, the hour component iff `days > 0` or `hours > 0`, the minute component
iff `days > 0`, `hours > 0` or `minutes > 0`, each followed by one space, then
`<seconds>.<mmm> seconds` with `mmm` of exactly three digits, then the `newline` buffer. -/
theorem showTimer_rendering (w : World) (startTime : Int) (hstart : startTime ≠ 0)
    (hms : 0 ≤ elapsedMs startTime w) :
    showTimer startTime w
      = .ret () ((now w).2.print (specRendering (elapsedMs startTime w).toNat ++ w.newline)) := by
  obtain ⟨n, hn⟩ := Int.eq_ofNat_of_zero_le hms
  have ht : elapsedText (wrap64 ((now w).1 - startTime)) = specRendering n := by
    have : wrap64 ((now w).1 - startTime) = (n : Int) := hn
    rw [this, elapsedText_natCast]
  simp only [showTimer, if_neg hstart, ht, hn, Int.toNat_ofNat]
  rfl

theorem showTimer_rendering_witness :
    (1699909938999 : Int) ≠ 0 ∧ 0 ≤ elapsedMs 1699909938999 demoWorld
      ∧ showTimer 1699909938999 demoWorld
        = .ret () ((now demoWorld).2.print
            (specRendering (elapsedMs 1699909938999 demoWorld).toNat ++ demoWorld.newline)) :=
  ⟨by decide, by decide, showTimer_rendering demoWorld 1699909938999 (by decide) (by decide)⟩

/-! ## C2: formatting boundaries -/

/-- C2. With a non-zero start time, `showTimer` prints, before the `newline` buffer, exactly
`0.999 seconds` for an elapsed time of 999 ms, `1 minute 0.000 seconds` for 60000 ms,
`1 hour 0 minutes 0.000 seconds` for 3600000 ms and `1 day 0 hours 0 minutes 1.000 seconds`
for 86400000 + 1000 ms. -/
theorem showTimer_boundaries (w : World) (startTime : Int) (hstart : startTime ≠ 0) :
    (elapsedMs startTime w = 999 →
        showTimer startTime w = .ret () ((now w).2.print ("0.999 seconds" ++ w.newline)))
    ∧ (elapsedMs startTime w = 60000 →
        showTimer startTime w = .ret () ((now w).2.print ("1 minute 0.000 seconds" ++ w.newline)))
    ∧ (elapsedMs startTime w = 3600000 →
        showTimer startTime w
          = .ret () ((now w).2.print ("1 hour 0 minutes 0.000 seconds" ++ w.newline)))
    ∧ (elapsedMs startTime w = 86400000 + 1000 →
        showTimer startTime w
          = .ret () ((now w).2.print ("1 day 0 hours 0 minutes 1.000 seconds" ++ w.newline))) := by
  have e1 : elapsedText 999 = "0.999 seconds" := by decide
  have e2 : elapsedText 60000 = "1 minute 0.000 seconds" := by decide
  have e3 : elapsedText 3600000 = "1 hour 0 minutes 0.000 seconds" := by decide
  have e4 : elapsedText (86400000 + 1000) = "1 day 0 hours 0 minutes 1.000 seconds" := by decide
  refine ⟨fun h => ?_, fun h => ?_, fun h => ?_, fun h => ?_⟩
  · rw [showTimer_of_ne_zero w startTime hstart, h, e1]
  · rw [showTimer_of_ne_zero w startTime hstart, h, e2]
  · rw [showTimer_of_ne_zero w startTime hstart, h, e3]
  · rw [showTimer_of_ne_zero w startTime hstart, h, e4]

theorem showTimer_boundaries_witness :
    ((1699999999001 : Int) ≠ 0 ∧ elapsedMs 1699999999001 demoWorld = 999
      ∧ showTimer 1699999999001 demoWorld
        = .ret () ((now demoWorld).2.print ("0.999 seconds" ++ demoWorld.newline)))
    ∧ ((1699999940000 : Int) ≠ 0 ∧ elapsedMs 1699999940000 demoWorld = 60000
      ∧ showTimer 1699999940000 demoWorld
        = .ret () ((now demoWorld).2.print ("1 minute 0.000 seconds" ++ demoWorld.newline)))
    ∧ ((1699996400000 : Int) ≠ 0 ∧ elapsedMs 1699996400000 demoWorld = 3600000
      ∧ showTimer 1699996400000 demoWorld
        = .ret () ((now demoWorld).2.print
            ("1 hour 0 minutes 0.000 seconds" ++ demoWorld.newline)))
    ∧ ((1699913599000 : Int) ≠ 0 ∧ elapsedMs 1699913599000 demoWorld = 86400000 + 1000
      ∧ showTimer 1699913599000 demoWorld
        = .ret () ((now demoWorld).2.print
            ("1 day 0 hours 0 minutes 1.000 seconds" ++ demoWorld.newline))) :=
  ⟨⟨by decide, by decide, (showTimer_boundaries demoWorld _ (by decide)).1 (by decide)⟩,
   ⟨by decide, by decide, (showTimer_boundaries demoWorld _ (by decide)).2.1 (by decide)⟩,
   ⟨by decide, by decide, (showTimer_boundaries demoWorld _ (by decide)).2.2.1 (by decide)⟩,
   ⟨by decide, by decide, (showTimer_boundaries demoWorld _ (by decide)).2.2.2 (by decide)⟩⟩

/-! ## C3: path resolution -/

theorem head?_eq_some_iff_beginsWith (c : Char) (name : String) :
    name.data.head? = some c ↔ beginsWith c name := by
  constructor
  · intro h
    obtain ⟨data⟩ := name
    cases data with
    | nil => simp at h
    | cons d ds =>
      simp only [List.head?_cons, Option.some.injEq] at h
      exact ⟨String.mk ds, by subst h; rfl⟩
  · rintro ⟨rest, rfl⟩
    rfl

theorem nonEmpty_some_iff (name : String) : nonEmpty (some name) = true ↔ name ≠ "" := by
  obtain ⟨data⟩ := name
  cases data with
  | nil => simp [nonEmpty]
  | cons d ds =>
    simp only [nonEmpty, List.isEmpty_cons, Bool.not_false, ne_eq, true_iff]
    intro h
    exact absurd (congrArg String.data h) (by simp)

/-- C3. For a timer name of at most 2048 characters: a non-empty name that begins with `/`
resolves to the name followed by `.elapsed`; a non-empty name that does not begin with `/`
resolves to `/tmp/`, the name, `.elapsed`; the empty name and the absent name resolve to
`/tmp/timer$tart.elapsed`, which is also the path of the name `timer$tart`; in each case the
path fits the static buffer.  In particular `/abs/path` gives `/abs/path.elapsed` and `foo`
gives `/tmp/foo.elapsed`. -/
theorem timerName_resolution (name : String) (hlen : name.length ≤ 2048) :
    (name ≠ "" → beginsWith '/' name → timerName (some name) = name ++ ".elapsed")
    ∧ (name ≠ "" → ¬ beginsWith '/' name → timerName (some name) = "/tmp/" ++ name ++ ".elapsed")
    ∧ timerName (some "") = "/tmp/timer$tart.elapsed"
    ∧ timerName none = "/tmp/timer$tart.elapsed"
    ∧ timerName (some "") = timerName (some "timer$tart")
    ∧ timerName (some "/abs/path") = "/abs/path.elapsed"
    ∧ timerName (some "foo") = "/tmp/foo.elapsed"
    ∧ (timerName (some name)).length + 1 ≤ filenameCapacity := by
  refine ⟨?_, ?_, by decide, by decide, by decide, by decide, by decide, ?_⟩
  · intro hne hb
    have h1 := (nonEmpty_some_iff name).2 hne
    have h2 := (head?_eq_some_iff_beginsWith '/' name).2 hb
    simp only [timerName, h1, nameText, h2, if_true, TIMEREXTENSION, String.append_assoc]
    rfl
  · intro hne hb
    have h1 := (nonEmpty_some_iff name).2 hne
    have h2 : ¬ name.data.head? = some '/' := fun h =>
      hb ((head?_eq_some_iff_beginsWith '/' name).1 h)
    simp only [timerName, h1, nameText, h2, if_true, if_false, TIMEREXTENSION, DEFAULTPATH,
      String.append_assoc]
    rfl
  · have hT : TIMEREXTENSION.length = 7 := by decide
    have hP : DEFAULTPATH.length = 4 := by decide
    have hD : DEFAULTTIMER.length = 10 := by decide
    have h1 : ("/" : String).length = 1 := by decide
    have h2 : ("." : String).length = 1 := by decide
    simp only [timerName, nameText, filenameCapacity, MAXTIMERNAME]
    split_ifs <;> simp only [String.length_append, hT, hP, hD, h1, h2] <;> omega

theorem timerName_resolution_witness :
    ("foo" : String).length ≤ 2048
    ∧ (("foo" : String) ≠ "" → beginsWith '/' "foo" → timerName (some "foo") = "foo" ++ ".elapsed")
    ∧ (("foo" : String) ≠ "" → ¬ beginsWith '/' "foo"
        → timerName (some "foo") = "/tmp/" ++ "foo" ++ ".elapsed")
    ∧ timerName (some "") = "/tmp/timer$tart.elapsed"
    ∧ timerName none = "/tmp/timer$tart.elapsed"
    ∧ timerName (some "") = timerName (some "timer$tart")
    ∧ timerName (some "/abs/path") = "/abs/path.elapsed"
    ∧ timerName (some "foo") = "/tmp/foo.elapsed"
    ∧ (timerName (some "foo")).length + 1 ≤ filenameCapacity :=
  ⟨by decide, timerName_resolution "foo" (by decide)⟩

/-! ## The timer store: basic facts -/

theorem timerExists_absent (name : Option String) (w : World)
    (h : w.files (timerName name) = none) : timerExists name w = .ret false w := by
  simp [timerExists, h]

theorem timerExists_corrupt (name : Option String) (w : World) (bytes : List Byte)
    (h : w.files (timerName name) = some bytes) (hsize : bytes.length ≠ 8) :
    timerExists name w
      = .exit 3 ((w.remove (timerName name)).print (corruptMessage name bytes)) := by
  simp [timerExists, h, hsize, corruptMessage]

theorem World.remove_of_removable (w : World) (path : String)
    (h : w.removable path = true) :
    w.remove path = { w with files := removeFile w.files path } := by
  simp only [World.remove, h, if_true]

theorem World.remove_of_not_removable (w : World) (path : String)
    (h : w.removable path = false) : w.remove path = w := by
  simp [World.remove, h]

theorem timerExists_valid (name : Option String) (w : World) (bytes : List Byte)
    (h : w.files (timerName name) = some bytes) (hsize : bytes.length = 8) :
    timerExists name w = .ret true w := by
  simp [timerExists, h, hsize]

theorem getTimer_absent (name : Option String) (w : World)
    (h : w.files (timerName name) = none) :
    getTimer name w = .exit 2 (w.print (notStartedMessage name)) := by
  simp only [getTimer, timerExists_absent name w h, notStartedMessage]
  split_ifs <;> rfl

theorem stopTimer_absent (name : Option String) (w : World)
    (h : w.files (timerName name) = none) :
    stopTimer name w = .exit 2 (w.print (notFoundMessage name)) := by
  simp only [stopTimer, timerExists_absent name w h, notFoundMessage]
  split_ifs <;> rfl

theorem execute_show (restart : Bool) (w : World) :
    execute "SHOW" restart w
      = (getTimer (some w.timer) w).bind fun startTime w1 =>
          (showTimer startTime w1).bind fun _ w2 =>
            if restart then (startTimer (some w2.timer) w2).bind fun _ w3 => .ret 0 w3
            else .ret 0 w2 := by
  have h : ¬ ("SHOW" = "START") := by decide
  simp only [execute, if_neg h, if_true]

theorem execute_stop (restart : Bool) (w : World) :
    execute "STOP" restart w = (stopTimer (some w.timer) w).bind fun _ w1 => .ret 0 w1 := by
  have h1 : ¬ ("STOP" = "START") := by decide
  have h2 : ¬ ("STOP" = "SHOW") := by decide
  simp only [execute, if_neg h1, if_neg h2, if_true]

theorem execute_start (restart : Bool) (w : World) :
    execute "START" restart w = (startTimer (some w.timer) w).bind fun _ w1 => .ret 0 w1 := by
  simp only [execute, if_true]

/-! ## C4: corruption repair -/

/-- C4, as stated, fails where the caller cannot remove the file: in `stickyWorld`, with
another user's 3-byte file at the path of `foo`, `timerExists` prints the message and exits
with status 3 but the file is still there, and the show or stop that follows exits with
status 3 on the corruption path again, not with status 2. -/
theorem corrupt_timer_repair_counterexample :
    ∃ w1 : World, timerExists (some "foo") stickyWorld = .exit 3 w1
      ∧ w1.files (timerName (some "foo")) = some [1, 2, 3]
      ∧ ∃ w2 : World, getTimer (some "foo") w1 = .exit 3 w2
          ∧ stopTimer (some "foo") w1 = .exit 3 w2 :=
  ⟨_, rfl, by decide, _, rfl, rfl⟩

/-- C4, amended. When a file whose size is not 8 bytes (0 included), and which the caller can
remove, stands at the resolved path of a timer, each of `timerExists`, `getTimer` (show) and
`stopTimer` (stop) on that name removes the file, prints the corruption message and exits with
status 3, and so do the `SHOW` and `STOP` commands of `main` for the timer named in `timer`;
every other file is unchanged; and in every later world with that file system, show and stop on
the name exit with status 2 on the "not started" / "not found" path. -/
theorem corrupt_timer_repair (name : Option String) (w : World) (bytes : List Byte)
    (hfile : w.files (timerName name) = some bytes) (hsize : bytes.length ≠ 8)
    (hrem : w.removable (timerName name) = true) :
    timerExists name w
        = .exit 3 ({ w with files := removeFile w.files (timerName name) }.print
            (corruptMessage name bytes))
    ∧ getTimer name w
        = .exit 3 ({ w with files := removeFile w.files (timerName name) }.print
            (corruptMessage name bytes))
    ∧ stopTimer name w
        = .exit 3 ({ w with files := removeFile w.files (timerName name) }.print
            (corruptMessage name bytes))
    ∧ (name = some w.timer → ∀ restart : Bool,
        execute "SHOW" restart w
            = .exit 3 ({ w with files := removeFile w.files (timerName name) }.print
                (corruptMessage name bytes))
        ∧ execute "STOP" restart w
            = .exit 3 ({ w with files := removeFile w.files (timerName name) }.print
                (corruptMessage name bytes)))
    ∧ removeFile w.files (timerName name) (timerName name) = none
    ∧ (∀ p : String, p ≠ timerName name → removeFile w.files (timerName name) p = w.files p)
    ∧ (∀ w2 : World, w2.files = removeFile w.files (timerName name) →
        getTimer name w2 = .exit 2 (w2.print (notStartedMessage name))
        ∧ stopTimer name w2 = .exit 2 (w2.print (notFoundMessage name))) := by
  have hE := timerExists_corrupt name w bytes hfile hsize
  rw [World.remove_of_removable w _ hrem] at hE
  have hG : getTimer name w
      = .exit 3 ({ w with files := removeFile w.files (timerName name) }.print
          (corruptMessage name bytes)) := by
    simp only [getTimer, hE]
  have hS : stopTimer name w
      = .exit 3 ({ w with files := removeFile w.files (timerName name) }.print
          (corruptMessage name bytes)) := by
    simp only [stopTimer, hE]
  refine ⟨hE, hG, hS, ?_, ?_, ?_, ?_⟩
  · intro hname restart
    subst hname
    rw [execute_show, execute_stop, hG, hS]
    exact ⟨rfl, rfl⟩
  · simp [removeFile]
  · intro p hp
    simp [removeFile, hp]
  · intro w2 h2
    have hnone : w2.files (timerName name) = none := by simp [h2, removeFile]
    exact ⟨getTimer_absent name w2 hnone, stopTimer_absent name w2 hnone⟩

theorem corrupt_timer_repair_witness :
    corruptWorld.files (timerName (some "foo")) = some [1, 2, 3]
    ∧ ([1, 2, 3] : List Byte).length ≠ 8
    ∧ corruptWorld.removable (timerName (some "foo")) = true
    ∧ getTimer (some "foo") corruptWorld
        = .exit 3 ({ corruptWorld with
            files := removeFile corruptWorld.files (timerName (some "foo")) }.print
              (corruptMessage (some "foo") [1, 2, 3]))
    ∧ removeFile corruptWorld.files (timerName (some "foo")) (timerName (some "foo")) = none :=
  ⟨by decide, by decide, by decide,
    (corrupt_timer_repair (some "foo") corruptWorld [1, 2, 3] (by decide) (by decide)
      (by decide)).2.1,
    (corrupt_timer_repair (some "foo") corruptWorld [1, 2, 3] (by decide) (by decide)
      (by decide)).2.2.2.2.1⟩

/-! ## C5: show of a timer that was not started -/

/-- C5. When no file stands at the resolved path of the timer named in `timer`, the `SHOW`
command, with or without the restart flag, exits with status 2 after printing only
`Timer named '<name>' was not started.` for a non-empty name, or
`Default (unnamed) timer was not started.` for the empty name; the clock is not read and the
file system is unchanged, so the restart flag does not create the timer. -/
theorem show_unstarted (w : World) (restart : Bool)
    (habsent : w.files (timerName (some w.timer)) = none) :
    execute "SHOW" restart w
        = .exit 2 (w.print (if w.timer = "" then "Default (unnamed) timer was not started.\n"
            else "Timer named '" ++ w.timer ++ "' was not started.\n"))
    ∧ (w.print (if w.timer = "" then "Default (unnamed) timer was not started.\n"
            else "Timer named '" ++ w.timer ++ "' was not started.\n")).files = w.files
    ∧ (w.print (if w.timer = "" then "Default (unnamed) timer was not started.\n"
            else "Timer named '" ++ w.timer ++ "' was not started.\n")).out
        = w.out ++ (if w.timer = "" then "Default (unnamed) timer was not started.\n"
            else "Timer named '" ++ w.timer ++ "' was not started.\n") := by
  refine ⟨?_, rfl, rfl⟩
  rw [execute_show, getTimer_absent _ w habsent]
  simp only [Outcome.bind, notStartedMessage, nameText]
  by_cases h : w.timer = ""
  · have hn : nonEmpty (some w.timer) = false := by
      rw [← Bool.not_eq_true, nonEmpty_some_iff]; simp [h]
    rw [if_pos h, hn]; rfl
  · have hn : nonEmpty (some w.timer) = true := (nonEmpty_some_iff _).2 h
    rw [if_neg h, hn]; rfl

theorem show_unstarted_witness :
    ghostWorld.files (timerName (some ghostWorld.timer)) = none
    ∧ execute "SHOW" true ghostWorld
        = .exit 2 (ghostWorld.print "Timer named 'ghost' was not started.\n")
    ∧ (ghostWorld.print "Timer named 'ghost' was not started.\n").files = ghostWorld.files :=
  ⟨by decide, (show_unstarted ghostWorld true (by decide)).1, rfl⟩

/-! ## The object representation is faithful -/

theorem wrap64_inInt64 (x : Int) : inInt64 (wrap64 x) := by
  unfold inInt64 wrap64; omega

theorem wrap64_of_inInt64 (x : Int) (h : inInt64 x) : wrap64 x = x := by
  unfold inInt64 at h; unfold wrap64; omega

theorem nowOf_inInt64 (spec : Timespec) : inInt64 (nowOf spec) := wrap64_inInt64 _

theorem toLE_length (k n : Nat) : (toLE k n).length = k := by
  induction k generalizing n with
  | zero => rfl
  | succ k ih => simp [toLE, ih]

theorem ofLE_toLE (k n : Nat) : ofLE (toLE k n) = n % 256 ^ k := by
  induction k generalizing n with
  | zero => simp [toLE, ofLE, Nat.mod_one]
  | succ k ih =>
    have hv : ((Fin.ofNat (n % 256) : Fin 256) : Nat) = n % 256 := by simp [Fin.ofNat]
    rw [toLE, ofLE, ih, hv, pow_succ', Nat.mod_mul]

theorem objectBytes_length (bigEndian : Bool) (t : Int) :
    (objectBytes bigEndian t).length = 8 := by
  cases bigEndian <;> simp [objectBytes, toLE_length]

theorem objectValue_objectBytes (bigEndian : Bool) (t : Int) (ht : inInt64 t) :
    objectValue bigEndian (objectBytes bigEndian t) = t := by
  have h : objectValue bigEndian (objectBytes bigEndian t)
      = wrap64 (((t % 2 ^ 64).toNat % 256 ^ 8 : Nat) : Int) := by
    cases bigEndian <;> simp [objectValue, objectBytes, ofLE_toLE]
  rw [h]
  unfold inInt64 at ht
  unfold wrap64
  omega

theorem startTimer_writable (name : Option String) (w : World)
    (hw : w.writable (timerName name) = true) :
    startTimer name w
      = .ret () { (now w).2 with
          files := writeFile w.files (timerName name) (objectBytes w.bigEndian (now w).1) } := by
  simp only [startTimer, now, hw, if_true]

theorem startTimer_not_writable (name : Option String) (w : World)
    (hw : w.writable (timerName name) = false) :
    startTimer name w = .ret () (now w).2 := by
  simp [startTimer, now, hw]

theorem getTimer_valid (name : Option String) (w : World) (bytes : List Byte)
    (h : w.files (timerName name) = some bytes) (hsize : bytes.length = 8)
    (hread : w.readable (timerName name) = true) :
    getTimer name w = .ret (objectValue w.bigEndian bytes) w := by
  have hle : 8 ≤ bytes.length := by omega
  have ho : w.openRead (timerName name) = some bytes := by
    rw [World.openRead, hread, if_pos rfl, h]
  simp only [getTimer, timerExists_valid name w bytes h hsize, ho, if_pos hle,
    List.take_of_length_le (Nat.le_of_eq hsize)]

theorem getTimer_unreadable (name : Option String) (w : World) (bytes : List Byte)
    (h : w.files (timerName name) = some bytes) (hsize : bytes.length = 8)
    (hread : w.readable (timerName name) = false) :
    getTimer name w = .ret 0 w := by
  have ho : w.openRead (timerName name) = none := by
    rw [World.openRead, hread]
    rfl
  simp only [getTimer, timerExists_valid name w bytes h hsize, ho]

/-- On a valid file `getTimer` returns: the stored instant when the file can be opened for
reading, and 0 when it cannot. -/
theorem getTimer_of_valid (name : Option String) (w : World) (bytes : List Byte)
    (h : w.files (timerName name) = some bytes) (hsize : bytes.length = 8) :
    getTimer name w
      = .ret (if w.readable (timerName name) then objectValue w.bigEndian bytes else 0) w := by
  cases hr : w.readable (timerName name) with
  | true => rw [getTimer_valid name w bytes h hsize hr, if_pos rfl]
  | false => rw [getTimer_unreadable name w bytes h hsize hr, if_neg Bool.false_ne_true]

/-! ## C6: round trip of start and read -/

/-- C6, as stated, fails where the file can be opened for writing but not for reading: in
`writeOnlyWorld` `startTimer` writes the 8 bytes of the reading 1700000000000, and `getTimer`
right afterwards, its `fopen` returning `NULL`, returns 0. -/
theorem start_read_round_trip_counterexample :
    writeOnlyWorld.writable (timerName (some "foo")) = true
    ∧ (now writeOnlyWorld).1 = 1700000000000
    ∧ ∃ w1 : World, startTimer (some "foo") writeOnlyWorld = .ret () w1
        ∧ w1.files (timerName (some "foo")) = some (objectBytes false 1700000000000)
        ∧ getTimer (some "foo") w1 = .ret 0 w1 :=
  ⟨by decide, by decide, _, rfl, by decide, rfl⟩

/-- C6, amended. When the file of the timer can be opened for writing and for reading,
`startTimer` at the clock reading `t` returns normally and leaves at the resolved path the 8
bytes of `t`, a valid timer file; `getTimer` on the same name right afterwards returns exactly
`t` and changes nothing.  Decoding undoes encoding for every 64-bit value. -/
theorem start_read_round_trip (name : Option String) (w : World) (t : Int)
    (hw : w.writable (timerName name) = true) (hread : w.readable (timerName name) = true)
    (ht : (now w).1 = t) :
    ∃ w1 : World, startTimer name w = .ret () w1
      ∧ w1.files (timerName name) = some (objectBytes w.bigEndian t)
      ∧ (objectBytes w.bigEndian t).length = 8
      ∧ getTimer name w1 = .ret t w1
      ∧ ∀ (bigEndian : Bool) (v : Int), inInt64 v →
          objectValue bigEndian (objectBytes bigEndian v) = v := by
  subst ht
  refine ⟨_, startTimer_writable name w hw, ?_, objectBytes_length _ _, ?_,
    fun b v hv => objectValue_objectBytes b v hv⟩
  · simp [writeFile]
  · have hr1 : ({ (now w).2 with
        files := writeFile w.files (timerName name) (objectBytes w.bigEndian (now w).1) }
          : World).readable (timerName name) = true := hread
    rw [getTimer_valid name _ (objectBytes w.bigEndian (now w).1) (by simp [writeFile])
      (objectBytes_length _ _) hr1]
    have : objectValue w.bigEndian (objectBytes w.bigEndian (now w).1) = (now w).1 :=
      objectValue_objectBytes _ _ (nowOf_inInt64 _)
    simp only [now] at this ⊢
    rw [this]

theorem start_read_round_trip_witness :
    demoWorld.writable (timerName (some "foo")) = true
    ∧ demoWorld.readable (timerName (some "foo")) = true ∧ (now demoWorld).1 = 1700000000000
    ∧ ∃ w1 : World, startTimer (some "foo") demoWorld = .ret () w1
      ∧ w1.files (timerName (some "foo")) = some (objectBytes demoWorld.bigEndian 1700000000000)
      ∧ (objectBytes demoWorld.bigEndian 1700000000000).length = 8
      ∧ getTimer (some "foo") w1 = .ret 1700000000000 w1
      ∧ ∀ (bigEndian : Bool) (v : Int), inInt64 v →
          objectValue bigEndian (objectBytes bigEndian v) = v :=
  ⟨by decide, by decide, by decide,
    start_read_round_trip (some "foo") demoWorld 1700000000000 (by decide) (by decide)
      (by decide)⟩

/-! ## C7: start overwrites -/

/-- C7, as stated, fails where the file cannot be opened for writing: in `lockedWorld` the
3-byte file at the path of `foo` is still there after `startTimer`, and it is not the 8 bytes of
the clock reading. -/
theorem startTimer_overwrites_counterexample :
    ∃ w1 : World, startTimer (some "foo") lockedWorld = .ret () w1
      ∧ w1.files (timerName (some "foo")) = some [1, 2, 3]
      ∧ w1.files (timerName (some "foo"))
          ≠ some (objectBytes lockedWorld.bigEndian (now lockedWorld).1) :=
  ⟨(now lockedWorld).2, startTimer_not_writable (some "foo") lockedWorld (by decide),
    by decide, by decide⟩

/-- C7, amended. When the file of the timer can be opened for writing, then whatever stood at
the resolved path before (nothing, a valid file, a file of any other size), `startTimer` at the
clock reading `t` returns normally, without any exit, and leaves at that path exactly the 8 bytes
that encode `t`, every other file unchanged; a second `startTimer` then leaves the 8 bytes of
its own clock reading, the next one, and again changes no other file. -/
theorem startTimer_overwrites (name : Option String) (w : World)
    (hw : w.writable (timerName name) = true) :
    ∃ w1 : World, startTimer name w = .ret () w1
      ∧ w1.files (timerName name) = some (objectBytes w.bigEndian (now w).1)
      ∧ (objectBytes w.bigEndian (now w).1).length = 8
      ∧ objectValue w.bigEndian (objectBytes w.bigEndian (now w).1) = (now w).1
      ∧ (∀ p : String, p ≠ timerName name → w1.files p = w.files p)
      ∧ ∃ w2 : World, startTimer name w1 = .ret () w2
          ∧ (now w1).1 = nowOf (w.clock (w.ticks + 1))
          ∧ w2.files (timerName name) = some (objectBytes w.bigEndian (now w1).1)
          ∧ objectValue w.bigEndian (objectBytes w.bigEndian (now w1).1) = (now w1).1
          ∧ (∀ p : String, p ≠ timerName name → w2.files p = w.files p) := by
  refine ⟨_, startTimer_writable name w hw, by simp [writeFile], objectBytes_length _ _,
    objectValue_objectBytes _ _ (nowOf_inInt64 _), fun p hp => by simp [writeFile, hp], ?_⟩
  refine ⟨_, startTimer_writable name _ (by simpa [now] using hw), rfl, by simp [writeFile, now],
    objectValue_objectBytes _ _ (nowOf_inInt64 _), fun p hp => by simp [writeFile, hp, now]⟩

theorem startTimer_overwrites_witness :
    corruptWorld.writable (timerName (some "foo")) = true
    ∧ ∃ w1 : World, startTimer (some "foo") corruptWorld = .ret () w1
      ∧ w1.files (timerName (some "foo"))
          = some (objectBytes corruptWorld.bigEndian (now corruptWorld).1)
      ∧ (objectBytes corruptWorld.bigEndian (now corruptWorld).1).length = 8
      ∧ objectValue corruptWorld.bigEndian
          (objectBytes corruptWorld.bigEndian (now corruptWorld).1) = (now corruptWorld).1
      ∧ (∀ p : String, p ≠ timerName (some "foo") → w1.files p = corruptWorld.files p)
      ∧ ∃ w2 : World, startTimer (some "foo") w1 = .ret () w2
          ∧ (now w1).1 = nowOf (corruptWorld.clock (corruptWorld.ticks + 1))
          ∧ w2.files (timerName (some "foo"))
              = some (objectBytes corruptWorld.bigEndian (now w1).1)
          ∧ objectValue corruptWorld.bigEndian
              (objectBytes corruptWorld.bigEndian (now w1).1) = (now w1).1
          ∧ (∀ p : String, p ≠ timerName (some "foo") → w2.files p = corruptWorld.files p) :=
  ⟨by decide, startTimer_overwrites (some "foo") corruptWorld (by decide)⟩

/-! ## C8: stop -/

theorem notFoundMessage_cases (n : String) :
    (n ≠ "" → notFoundMessage (some n) = "Timer named '" ++ n ++ "' was not found.\n")
    ∧ notFoundMessage (some "") = "Default (unnamed) timer was not found.\n"
    ∧ notFoundMessage none = "Default (unnamed) timer was not found.\n" := by
  refine ⟨fun h => ?_, by decide, by decide⟩
  simp [notFoundMessage, (nonEmpty_some_iff n).2 h, nameText]

/-- C8, as stated, fails where the caller cannot remove the file: in `stickyStartedWorld`,
with another user's valid timer file at the path of `foo`, `stopTimer` returns normally and the
`STOP` command returns 0, but the file is still there with its 8 bytes, and the stop that
follows returns normally again instead of exiting with status 2. -/
theorem stopTimer_behaviour_counterexample :
    ∃ w1 : World, stopTimer (some "foo") stickyStartedWorld = .ret () w1
      ∧ execute "STOP" false stickyStartedWorld = .ret 0 w1
      ∧ w1.files (timerName (some "foo")) = some (objectBytes false 1699999999001)
      ∧ stopTimer (some "foo") w1 = .ret () w1 :=
  ⟨_, rfl, rfl, by decide, rfl⟩

/-- C8, amended. `stopTimer` exits with status 2 exactly when no file stands at the resolved
path, and then it prints the `was not found` message and leaves the file system unchanged.
When a valid 8-byte file stands there, `stopTimer` calls `remove` and returns; if the caller
can remove the file, that file and no other is removed, the `STOP` command of `main` returns 0,
the exit status of the process, and in every later world with that file system, show and stop
on the name exit with status 2. -/
theorem stopTimer_behaviour (name : Option String) (w : World) :
    ((∃ w1 : World, stopTimer name w = .exit 2 w1) ↔ w.files (timerName name) = none)
    ∧ (w.files (timerName name) = none →
        stopTimer name w = .exit 2 (w.print (notFoundMessage name))
        ∧ (w.print (notFoundMessage name)).files = w.files)
    ∧ (∀ n : String, n ≠ "" →
        notFoundMessage (some n) = "Timer named '" ++ n ++ "' was not found.\n")
    ∧ notFoundMessage (some "") = "Default (unnamed) timer was not found.\n"
    ∧ (∀ bytes : List Byte, w.files (timerName name) = some bytes → bytes.length = 8 →
        stopTimer name w = .ret () (w.remove (timerName name)))
    ∧ (∀ bytes : List Byte, w.files (timerName name) = some bytes → bytes.length = 8 →
        w.removable (timerName name) = true →
        stopTimer name w = .ret () { w with files := removeFile w.files (timerName name) }
        ∧ removeFile w.files (timerName name) (timerName name) = none
        ∧ (∀ p : String, p ≠ timerName name → removeFile w.files (timerName name) p = w.files p)
        ∧ (name = some w.timer → ∀ restart : Bool,
            execute "STOP" restart w
              = .ret 0 { w with files := removeFile w.files (timerName name) })
        ∧ ∀ w2 : World, w2.files = removeFile w.files (timerName name) →
            getTimer name w2 = .exit 2 (w2.print (notStartedMessage name))
            ∧ stopTimer name w2 = .exit 2 (w2.print (notFoundMessage name))) := by
  refine ⟨⟨?_, fun h => ⟨_, stopTimer_absent name w h⟩⟩,
    fun h => ⟨stopTimer_absent name w h, rfl⟩,
    fun n hn => (notFoundMessage_cases n).1 hn, (notFoundMessage_cases "").2.1,
    fun bytes hf hsize => by
      simp only [stopTimer, timerExists_valid name w bytes hf hsize], ?_⟩
  · rintro ⟨w1, h1⟩
    cases hf : w.files (timerName name) with
    | none => rfl
    | some bytes =>
      by_cases hsize : bytes.length = 8
      · simp [stopTimer, timerExists_valid name w bytes hf hsize] at h1
      · simp [stopTimer, timerExists_corrupt name w bytes hf hsize] at h1
  · intro bytes hf hsize hrem
    have hS : stopTimer name w
        = .ret () { w with files := removeFile w.files (timerName name) } := by
      simp only [stopTimer, timerExists_valid name w bytes hf hsize,
        World.remove_of_removable w _ hrem]
    refine ⟨hS, by simp [removeFile], fun p hp => by simp [removeFile, hp], ?_, ?_⟩
    · intro hname restart
      subst hname
      rw [execute_stop, hS]
      rfl
    · intro w2 h2
      have hnone : w2.files (timerName name) = none := by simp [h2, removeFile]
      exact ⟨getTimer_absent name w2 hnone, stopTimer_absent name w2 hnone⟩

theorem stopTimer_behaviour_witness :
    startedWorld.files (timerName (some "foo")) = some (objectBytes false 1699999999001)
    ∧ (objectBytes false 1699999999001).length = 8
    ∧ startedWorld.removable (timerName (some "foo")) = true
    ∧ stopTimer (some "foo") startedWorld
        = .ret () { startedWorld with
            files := removeFile startedWorld.files (timerName (some "foo")) }
    ∧ execute "STOP" false startedWorld
        = .ret 0 { startedWorld with
            files := removeFile startedWorld.files (timerName (some "foo")) } :=
  ⟨by decide, by decide, by decide,
    ((stopTimer_behaviour (some "foo") startedWorld).2.2.2.2.2
      (objectBytes false 1699999999001) (by decide) (by decide) (by decide)).1,
    ((stopTimer_behaviour (some "foo") startedWorld).2.2.2.2.2
      (objectBytes false 1699999999001) (by decide) (by decide) (by decide)).2.2.2.1 rfl false⟩

/-! ## Show on a valid timer file -/

theorem Outcome.bind_ret {α β : Type} (a : α) (w : World) (f : α → World → Outcome β) :
    (Outcome.ret a w).bind f = f a w := rfl

theorem Outcome.bind_exit {α β : Type} (status : Int) (w : World)
    (f : α → World → Outcome β) : (Outcome.exit status w : Outcome α).bind f = .exit status w :=
  rfl

theorem execute_show_valid (restart : Bool) (w : World) (bytes : List Byte)
    (hfile : w.files (timerName (some w.timer)) = some bytes) (hsize : bytes.length = 8)
    (hread : w.readable (timerName (some w.timer)) = true)
    (hs : objectValue w.bigEndian bytes ≠ 0) :
    execute "SHOW" restart w
      = if restart then
          (startTimer (some w.timer) (afterPrint (objectValue w.bigEndian bytes) w)).bind
            fun _ w3 => .ret 0 w3
        else .ret 0 (afterPrint (objectValue w.bigEndian bytes) w) := by
  rw [execute_show, getTimer_valid _ w bytes hfile hsize hread, Outcome.bind_ret,
    showTimer_of_ne_zero w _ hs, Outcome.bind_ret]
  cases restart
  · exact rfl
  · exact rfl

theorem nowOf_mono (a b : Timespec) (ha : a.wellFormed) (hb : b.wellFormed)
    (hab : a.notAfter b) : nowOf a ≤ nowOf b := by
  obtain ⟨ha1, ha2, ha3, ha4⟩ := ha
  obtain ⟨hb1, hb2, hb3, hb4⟩ := hb
  unfold inInt64 at ha3 ha4 hb3 hb4
  unfold Timespec.notAfter at hab
  have hra : roundMs a.tv_nsec = (a.tv_nsec + 500000) / 1000000 := by simp [roundMs, ha1]
  have hrb : roundMs b.tv_nsec = (b.tv_nsec + 500000) / 1000000 := by simp [roundMs, hb1]
  have ea : nowOf a = a.tv_sec * 1000 + (a.tv_nsec + 500000) / 1000000 := by
    rw [nowOf, hra]; apply wrap64_of_inInt64; unfold inInt64; omega
  have eb : nowOf b = b.tv_sec * 1000 + (b.tv_nsec + 500000) / 1000000 := by
    rw [nowOf, hrb]; apply wrap64_of_inInt64; unfold inInt64; omega
  rw [ea, eb]
  omega

/-! ## C9: the restart flag -/

/-- C9, as stated, fails where the timer file cannot be opened for writing: in `readOnlyWorld`
the `SHOW` command with the restart flag prints and returns 0, and the file still holds the old
start instant, not the 8 bytes of the clock reading taken after the print. -/
theorem show_restart_counterexample :
    ∃ w3 : World, execute "SHOW" true readOnlyWorld = .ret 0 w3
      ∧ w3.files (timerName (some "foo")) = some (objectBytes false 1699999999001)
      ∧ w3.files (timerName (some "foo"))
          ≠ some (objectBytes readOnlyWorld.bigEndian
              (now (afterPrint 1699999999001 readOnlyWorld)).1) := by
  have h := execute_show_valid true readOnlyWorld (objectBytes false 1699999999001)
    (by decide) (by decide) (by decide) (by decide)
  have hv : objectValue readOnlyWorld.bigEndian (objectBytes false 1699999999001)
      = 1699999999001 := by decide
  rw [hv, if_pos rfl, startTimer_not_writable _ _ (by decide)] at h
  exact ⟨_, h, by decide, by decide⟩

/-- C9, amended. When the timer named in `timer` holds a valid file with a non-zero start
instant `s`, a file that show can read, and that file can be opened for writing, the `SHOW`
command with the restart flag
prints the text of the elapsed time `now - s` followed by the `newline` buffer, then leaves
exactly the world that `startTimer` produces from the world after the print: the file holds the
8 bytes that encode the next clock reading `t2`, and the command returns 0.  If both readings
are well formed and the clock did not go backward between them, `t2` is at least the reading
used for the printed elapsed time. -/
theorem show_restart (w : World) (bytes : List Byte)
    (hfile : w.files (timerName (some w.timer)) = some bytes) (hsize : bytes.length = 8)
    (hread : w.readable (timerName (some w.timer)) = true)
    (hs : objectValue w.bigEndian bytes ≠ 0)
    (hw : w.writable (timerName (some w.timer)) = true) :
    ∃ w3 : World, execute "SHOW" true w = .ret 0 w3
      ∧ startTimer (some w.timer) (afterPrint (objectValue w.bigEndian bytes) w) = .ret () w3
      ∧ w3.out = w.out ++ (elapsedText (wrap64 ((now w).1 - objectValue w.bigEndian bytes))
          ++ w.newline)
      ∧ (now (afterPrint (objectValue w.bigEndian bytes) w)).1 = nowOf (w.clock (w.ticks + 1))
      ∧ w3.files (timerName (some w.timer))
          = some (objectBytes w.bigEndian (nowOf (w.clock (w.ticks + 1))))
      ∧ (objectBytes w.bigEndian (nowOf (w.clock (w.ticks + 1)))).length = 8
      ∧ objectValue w.bigEndian (objectBytes w.bigEndian (nowOf (w.clock (w.ticks + 1))))
          = nowOf (w.clock (w.ticks + 1))
      ∧ (∀ p : String, p ≠ timerName (some w.timer) → w3.files p = w.files p)
      ∧ ((w.clock w.ticks).wellFormed → (w.clock (w.ticks + 1)).wellFormed →
          (w.clock w.ticks).notAfter (w.clock (w.ticks + 1)) →
          (now w).1 ≤ nowOf (w.clock (w.ticks + 1))) := by
  have h := execute_show_valid true w bytes hfile hsize hread hs
  have hw1 : (afterPrint (objectValue w.bigEndian bytes) w).writable
      (timerName (some (afterPrint (objectValue w.bigEndian bytes) w).timer)) = true := hw
  have hst := startTimer_writable (some w.timer) (afterPrint (objectValue w.bigEndian bytes) w) hw1
  rw [if_pos rfl] at h
  have hst2 : startTimer (some (afterPrint (objectValue w.bigEndian bytes) w).timer)
      (afterPrint (objectValue w.bigEndian bytes) w) = _ := hst
  refine ⟨_, ?_, hst, rfl, rfl, ?_, objectBytes_length _ _,
    objectValue_objectBytes _ _ (nowOf_inInt64 _), ?_, ?_⟩
  · rw [h]
    change (startTimer (some w.timer) (afterPrint (objectValue w.bigEndian bytes) w)).bind _ = _
    rw [hst]
    rfl
  · simp [writeFile, afterPrint, now, World.print]
  · intro p hp
    simp [writeFile, hp, afterPrint, now, World.print]
  · intro ha hb hab
    exact nowOf_mono _ _ ha hb hab

theorem show_restart_witness :
    startedWorld.files (timerName (some startedWorld.timer))
        = some (objectBytes false 1699999999001)
    ∧ (objectBytes false 1699999999001).length = 8
    ∧ startedWorld.readable (timerName (some startedWorld.timer)) = true
    ∧ objectValue startedWorld.bigEndian (objectBytes false 1699999999001) ≠ 0
    ∧ startedWorld.writable (timerName (some startedWorld.timer)) = true
    ∧ ∃ w3 : World, execute "SHOW" true startedWorld = .ret 0 w3
      ∧ w3.out = "0.999 seconds\n"
      ∧ w3.files (timerName (some "foo")) = some (objectBytes false 1700000001000) := by
  refine ⟨by decide, by decide, by decide, by decide, by decide, ?_⟩
  obtain ⟨w3, h1, -, h3, -, h5, -⟩ :=
    show_restart startedWorld (objectBytes false 1699999999001)
      (by decide) (by decide) (by decide) (by decide) (by decide)
  refine ⟨w3, h1, ?_, ?_⟩
  · rw [h3]; decide
  · rw [show timerName (some "foo") = timerName (some startedWorld.timer) from rfl, h5]; decide

/-! ## C10: a start instant of zero -/

/-- C10. When the timer named in `timer` holds a valid 8-byte file whose payload decodes to
the instant 0, the `SHOW` command, with or without the restart flag, formats no duration and
does not read the clock: it prints `No start-time set`, followed by ` for <name>` when the name
is non-empty, and a newline, and exits with status 1; the file system is unchanged, so the timer
is not restarted. -/
theorem show_no_start_time (w : World) (restart : Bool) (bytes : List Byte)
    (hfile : w.files (timerName (some w.timer)) = some bytes) (hsize : bytes.length = 8)
    (hzero : objectValue w.bigEndian bytes = 0) :
    execute "SHOW" restart w
        = .exit 1 (w.print ("No start-time set"
            ++ (if w.timer = "" then "" else " for " ++ w.timer) ++ "\n"))
    ∧ (w.print ("No start-time set"
            ++ (if w.timer = "" then "" else " for " ++ w.timer) ++ "\n")).files = w.files
    ∧ (w.print ("No start-time set"
            ++ (if w.timer = "" then "" else " for " ++ w.timer) ++ "\n")).ticks = w.ticks := by
  refine ⟨?_, rfl, rfl⟩
  have hv : (if w.readable (timerName (some w.timer)) then objectValue w.bigEndian bytes
      else 0) = 0 := by
    split_ifs
    · exact hzero
    · rfl
  rw [execute_show, getTimer_of_valid _ w bytes hfile hsize, hv, Outcome.bind_ret]
  simp only [showTimer, if_true]
  rw [Outcome.bind_exit]
  by_cases h : w.timer = ""
  · have hn : w.timer.data.isEmpty = true := by rw [h]; rfl
    rw [if_pos h, hn, h]; rfl
  · have hn : w.timer.data.isEmpty = false := by
      have := (nonEmpty_some_iff w.timer).2 h
      simpa [nonEmpty] using this
    rw [if_neg h, hn]
    simp only [Bool.false_eq_true, if_false, String.append_assoc]

theorem show_no_start_time_witness :
    zeroWorld.files (timerName (some zeroWorld.timer)) = some [0, 0, 0, 0, 0, 0, 0, 0]
    ∧ ([0, 0, 0, 0, 0, 0, 0, 0] : List Byte).length = 8
    ∧ objectValue zeroWorld.bigEndian [0, 0, 0, 0, 0, 0, 0, 0] = 0
    ∧ execute "SHOW" true zeroWorld = .exit 1 (zeroWorld.print "No start-time set for foo\n") :=
  ⟨by decide, by decide, by decide,
    (show_no_start_time zeroWorld true [0, 0, 0, 0, 0, 0, 0, 0]
      (by decide) (by decide) (by decide)).1⟩

/-! ## C14: pluralization -/

theorem unitComponent_space (word : String) (v : Nat) :
    unitComponent word v ++ " "
      = Nat.repr v ++ (if v = 1 then " " ++ word ++ " " else " " ++ word ++ "s ") := by
  unfold unitComponent unitLabel
  split_ifs
  · simp only [String.append_assoc]
  · simp only [String.append_assoc]
    rfl

theorem specRendering_eq_pluralRendering (ms : Nat) : specRendering ms = pluralRendering ms := by
  have hd : ∀ v : Nat, unitComponent "day" v ++ " "
      = Nat.repr v ++ (if v = 1 then " day " else " days ") := fun v => by
    rw [unitComponent_space]; rfl
  have hh : ∀ v : Nat, unitComponent "hour" v ++ " "
      = Nat.repr v ++ (if v = 1 then " hour " else " hours ") := fun v => by
    rw [unitComponent_space]; rfl
  have hm : ∀ v : Nat, unitComponent "minute" v ++ " "
      = Nat.repr v ++ (if v = 1 then " minute " else " minutes ") := fun v => by
    rw [unitComponent_space]; rfl
  simp only [specRendering, pluralRendering, hd, hh, hm, secondsComponent]

/-- C14. For a non-zero start time and a non-negative elapsed time, the text `showTimer`
prints carries, for each of the day, hour and minute values it shows, the singular label
(`day`, `hour`, `minute`) exactly when the value is 1 and the plural label for every other
value, 0 included, and always ends in the literal ` seconds`; so one day prints as `1 day`
with `0 hours`, and two days and one hour as `2 days 1 hour`. -/
theorem showTimer_pluralization (w : World) (startTime : Int) (hstart : startTime ≠ 0)
    (hms : 0 ≤ elapsedMs startTime w) :
    showTimer startTime w
        = .ret () ((now w).2.print
            (pluralRendering (elapsedMs startTime w).toNat ++ w.newline))
    ∧ elapsedText 86400000 = "1 day 0 hours 0 minutes 0.000 seconds"
    ∧ elapsedText 176400000 = "2 days 1 hour 0 minutes 0.000 seconds" := by
  refine ⟨?_, by decide, by decide⟩
  obtain ⟨n, hn⟩ := Int.eq_ofNat_of_zero_le hms
  rw [showTimer_of_ne_zero w startTime hstart, hn, elapsedText_natCast, Int.toNat_ofNat,
    specRendering_eq_pluralRendering]

theorem showTimer_pluralization_witness :
    (1699823600000 : Int) ≠ 0 ∧ 0 ≤ elapsedMs 1699823600000 demoWorld
    ∧ showTimer 1699823600000 demoWorld
        = .ret () ((now demoWorld).2.print
            ("2 days 1 hour 0 minutes 0.000 seconds" ++ demoWorld.newline)) :=
  ⟨by decide, by decide, (showTimer_pluralization demoWorld 1699823600000 (by decide)
    (by decide)).1⟩

/-! ## C15: show reads without mutation -/

/-- C15. When the timer named in `timer` holds a valid 8-byte file, the `SHOW` command without
the restart flag ends, by return or by the exit of a zero start instant, in a world with the
same file system: the timer file keeps its 8 bytes and no file is created or removed.  Reading
the timer yields a start instant `s`, the stored one when the file can be opened for reading,
and reading it in any later world with that file system, byte order and read permission yields
the same `s`, so successive shows measure from the same instant. -/
theorem show_reads_without_mutation (w : World) (bytes : List Byte)
    (hfile : w.files (timerName (some w.timer)) = some bytes) (hsize : bytes.length = 8) :
    ∃ (w1 : World) (s : Int),
      (execute "SHOW" false w = .ret 0 w1 ∨ execute "SHOW" false w = .exit 1 w1)
      ∧ w1.files = w.files
      ∧ w1.files (timerName (some w.timer)) = some bytes
      ∧ getTimer (some w.timer) w = .ret s w
      ∧ (w.readable (timerName (some w.timer)) = true → s = objectValue w.bigEndian bytes)
      ∧ (s ≠ 0 → execute "SHOW" false w = .ret 0 (afterPrint s w))
      ∧ ∀ w2 : World, w2.files = w1.files → w2.bigEndian = w.bigEndian →
          w2.readable (timerName (some w.timer)) = w.readable (timerName (some w.timer)) →
          getTimer (some w.timer) w2 = .ret s w2 := by
  have hget := getTimer_of_valid (some w.timer) w bytes hfile hsize
  have hread : ∀ w2 : World, w2.files = w.files → w2.bigEndian = w.bigEndian →
      w2.readable (timerName (some w.timer)) = w.readable (timerName (some w.timer)) →
      getTimer (some w.timer) w2
        = .ret (if w.readable (timerName (some w.timer)) then objectValue w.bigEndian bytes
            else 0) w2 := by
    intro w2 hf hb hr
    rw [getTimer_of_valid (some w.timer) w2 bytes (by rw [hf]; exact hfile) hsize, hb, hr]
  have hval : w.readable (timerName (some w.timer)) = true →
      (if w.readable (timerName (some w.timer)) then objectValue w.bigEndian bytes else 0)
        = objectValue w.bigEndian bytes := fun h => by rw [if_pos h]
  by_cases hs : (if w.readable (timerName (some w.timer)) then objectValue w.bigEndian bytes
      else 0) = 0
  · refine ⟨w.print ("No start-time set" ++ (if w.timer.data.isEmpty then "" else " for ")
        ++ w.timer ++ "\n"), _, Or.inr ?_, rfl, hfile, hget, hval, fun h => absurd hs h,
      fun w2 hf hb hr => hread w2 hf hb hr⟩
    rw [execute_show, hget, hs, Outcome.bind_ret]
    simp only [showTimer, if_true]
    rw [Outcome.bind_exit]
  · have h : execute "SHOW" false w
        = .ret 0 (afterPrint (if w.readable (timerName (some w.timer)) then
            objectValue w.bigEndian bytes else 0) w) := by
      rw [execute_show, hget, Outcome.bind_ret, showTimer_of_ne_zero w _ hs, Outcome.bind_ret,
        if_neg Bool.false_ne_true]
      rfl
    exact ⟨_, _, Or.inl h, rfl, hfile, hget, hval, fun _ => h,
      fun w2 hf hb hr => hread w2 hf hb hr⟩

theorem show_reads_without_mutation_witness :
    startedWorld.files (timerName (some startedWorld.timer))
        = some (objectBytes false 1699999999001)
    ∧ (objectBytes false 1699999999001).length = 8
    ∧ ∃ w1 : World, execute "SHOW" false startedWorld = .ret 0 w1
        ∧ w1.files = startedWorld.files ∧ w1.out = "0.999 seconds\n" := by
  refine ⟨by decide, by decide, ?_⟩
  obtain ⟨_, s, -, -, -, -, hs, h, -⟩ :=
    show_reads_without_mutation startedWorld (objectBytes false 1699999999001)
      (by decide) (by decide)
  have hs1 : s = 1699999999001 := by rw [hs (by decide)]; decide
  subst hs1
  exact ⟨_, h (by decide), rfl, by decide⟩

/-! ## C19: negative elapsed time -/

theorem tdiv_nonpos_of_neg (ms d : Int) (hms : ms < 0) (hd : 0 ≤ d) : ms.tdiv d ≤ 0 := by
  have h : ms = -(-ms) := by omega
  rw [h, Int.neg_tdiv]
  have := @Int.tdiv_nonneg (-ms) d (by omega) hd
  omega

theorem tmod_nonpos_of_nonpos (a d : Int) (ha : a ≤ 0) : a.tmod d ≤ 0 := by
  have h : a = -(-a) := by omega
  have h1 : (-(-a)).tmod d = -((-a).tmod d) := by
    rw [Int.tmod_def, Int.tmod_def, Int.neg_tdiv]; ring
  rw [h, h1]
  have := @Int.tmod_nonneg (-a) d (by omega)
  omega

/-- C19. For a negative elapsed time `ms`, truncating division and remainder make the days,
hours and minutes of `showTimer` all at most 0, so none of the three components is printed: the
text is the seconds component alone, `%ld` of `(ms / 1000) rem 60`, a dot, `%03lld` of
`ms rem 1000`, and ` seconds`, both numbers being at most 0.  Two days in the future,
`ms = -172800000`, prints `0.000 seconds`. -/
theorem showTimer_negative (w : World) (startTime : Int) (hstart : startTime ≠ 0)
    (hms : elapsedMs startTime w < 0) :
    (elapsedMs startTime w).tdiv 86400000 ≤ 0
    ∧ ((elapsedMs startTime w).tdiv 3600000).tmod 24 ≤ 0
    ∧ ((elapsedMs startTime w).tdiv 60000).tmod 60 ≤ 0
    ∧ ((elapsedMs startTime w).tdiv 1000).tmod 60 ≤ 0
    ∧ (elapsedMs startTime w).tmod 1000 ≤ 0
    ∧ showTimer startTime w
        = .ret () ((now w).2.print
            (printfD 0 (((elapsedMs startTime w).tdiv 1000).tmod 60) ++ "."
              ++ printfD 3 ((elapsedMs startTime w).tmod 1000) ++ " seconds" ++ w.newline))
    ∧ elapsedText (-172800000) = "0.000 seconds" := by
  have hd := tdiv_nonpos_of_neg _ 86400000 hms (by decide)
  have hh := tmod_nonpos_of_nonpos _ 24 (tdiv_nonpos_of_neg _ 3600000 hms (by decide))
  have hm := tmod_nonpos_of_nonpos _ 60 (tdiv_nonpos_of_neg _ 60000 hms (by decide))
  have hs := tmod_nonpos_of_nonpos _ 60 (tdiv_nonpos_of_neg _ 1000 hms (by decide))
  have hf := tmod_nonpos_of_nonpos _ 1000 (Int.le_of_lt hms)
  refine ⟨hd, hh, hm, hs, hf, ?_, by decide⟩
  rw [showTimer_of_ne_zero w startTime hstart]
  have hd' : ¬ (elapsedMs startTime w).tdiv 86400000 > 0 := by omega
  have hh' : ¬ ((elapsedMs startTime w).tdiv 3600000).tmod 24 > 0 := by omega
  have hm' : ¬ ((elapsedMs startTime w).tdiv 60000).tmod 60 > 0 := by omega
  have ht : elapsedText (elapsedMs startTime w)
      = printfD 0 (((elapsedMs startTime w).tdiv 1000).tmod 60) ++ "."
          ++ printfD 3 ((elapsedMs startTime w).tmod 1000) ++ " seconds" := by
    simp only [elapsedText, breakdown, hd', hh', hm', or_self, if_false, String.empty_append]
  rw [ht]

theorem showTimer_negative_witness :
    (1700000005000 : Int) ≠ 0 ∧ elapsedMs 1700000005000 demoWorld < 0
    ∧ showTimer 1700000005000 demoWorld
        = .ret () ((now demoWorld).2.print ("-5.000 seconds" ++ demoWorld.newline)) :=
  ⟨by decide, by decide,
    (showTimer_negative demoWorld 1700000005000 (by decide) (by decide)).2.2.2.2.2.1⟩

/-! ## C20: timer names and storage paths -/

theorem timerName_absolute (name : String) (h : beginsWith '/' name) :
    timerName (some name) = name ++ ".elapsed" := by
  have hne : name ≠ "" := by
    obtain ⟨rest, rfl⟩ := h
    intro h0
    exact absurd (congrArg String.data h0) (by simp [String.data_append, String.singleton])
  have h1 := (nonEmpty_some_iff name).2 hne
  have h2 := (head?_eq_some_iff_beginsWith '/' name).2 h
  simp only [timerName, h1, nameText, h2, if_true, TIMEREXTENSION, String.append_assoc]
  rfl

theorem timerName_relative (name : String) (hne : name ≠ "") (h : ¬ beginsWith '/' name) :
    timerName (some name) = "/tmp/" ++ name ++ ".elapsed" := by
  have h1 := (nonEmpty_some_iff name).2 hne
  have h2 : ¬ name.data.head? = some '/' := fun h' =>
    h ((head?_eq_some_iff_beginsWith '/' name).1 h')
  simp only [timerName, h1, nameText, h2, if_true, if_false, TIMEREXTENSION, DEFAULTPATH,
    String.append_assoc]
  rfl

theorem string_append_left_cancel (p a b : String) (h : p ++ a = p ++ b) : a = b := by
  apply String.ext
  have := congrArg String.data h
  simpa [String.data_append] using this

theorem string_append_right_cancel (a b s : String) (h : a ++ s = b ++ s) : a = b := by
  apply String.ext
  have := congrArg String.data h
  simpa [String.data_append] using this

theorem pathComponents_ne_nil (cs : List Char) : pathComponents cs ≠ [] := by
  cases cs with
  | nil => simp [pathComponents]
  | cons c cs =>
    rw [pathComponents]
    split <;> split_ifs <;> simp

/-- A leading `./` does not change the file that a path under `/tmp/` names. -/
theorem resolvedPath_dot_slash (rest : String) :
    resolvedPath ("/tmp/" ++ ("./" ++ rest)) = resolvedPath ("/tmp/" ++ rest) := by
  obtain ⟨piece, pieces, h⟩ := List.exists_cons_of_ne_nil (pathComponents_ne_nil rest.data)
  have e1 : ("/tmp/" ++ ("./" ++ rest)).data
      = '/' :: 't' :: 'm' :: 'p' :: '/' :: '.' :: '/' :: rest.data := rfl
  have e2 : ("/tmp/" ++ rest).data = '/' :: 't' :: 'm' :: 'p' :: '/' :: rest.data := rfl
  simp [resolvedPath, e1, e2, pathComponents, h]

theorem dot_slash_relative (n : String) :
    "./" ++ n ≠ "" ∧ ¬ beginsWith '/' ("./" ++ n) ∧ "./" ++ n ≠ n := by
  have h2 : ("./" : String).length = 2 := by decide
  refine ⟨?_, ?_, ?_⟩
  · intro h
    have := congrArg String.length h
    rw [String.length_append] at this
    have h0 : ("" : String).length = 0 := rfl
    omega
  · intro h
    have := (head?_eq_some_iff_beginsWith '/' ("./" ++ n)).2 h
    have e : ("./" ++ n).data = '.' :: '/' :: n.data := rfl
    rw [e] at this
    simp at this
  · intro h
    have := congrArg String.length h
    rw [String.length_append] at this
    omega

theorem timerName_dot_slash (n : String) (hne : n ≠ "") (hrel : ¬ beginsWith '/' n) :
    resolvedPath (timerName (some ("./" ++ n))) = resolvedPath (timerName (some n)) := by
  obtain ⟨h1, h2, _⟩ := dot_slash_relative n
  rw [timerName_relative n hne hrel, timerName_relative _ h1 h2, String.append_assoc,
    String.append_assoc, String.append_assoc]
  exact resolvedPath_dot_slash _

/-- C20, counterexample. Two distinct relative names can share a timer file, and so can two
distinct absolute names: `./foo` and `foo` are distinct, non-empty and do not begin with `/`,
their paths `/tmp/./foo.elapsed` and `/tmp/foo.elapsed` are different strings, and both name the
file `foo.elapsed` of the directory `tmp`; likewise `/tmp//foo` and `/tmp/foo` are distinct names
that begin with `/` whose paths name that same file. -/
theorem timerName_injectivity_counterexample :
    (("./foo" : String) ≠ "" ∧ ("foo" : String) ≠ "" ∧ ¬ beginsWith '/' "./foo"
      ∧ ¬ beginsWith '/' "foo" ∧ ("./foo" : String) ≠ "foo"
      ∧ timerName (some "./foo") = "/tmp/./foo.elapsed"
      ∧ timerName (some "foo") = "/tmp/foo.elapsed"
      ∧ resolvedPath (timerName (some "./foo")) = ["tmp", "foo.elapsed"]
      ∧ resolvedPath (timerName (some "foo")) = ["tmp", "foo.elapsed"])
    ∧ (beginsWith '/' "/tmp//foo" ∧ beginsWith '/' "/tmp/foo"
      ∧ ("/tmp//foo" : String) ≠ "/tmp/foo"
      ∧ timerName (some "/tmp//foo") = "/tmp//foo.elapsed"
      ∧ timerName (some "/tmp/foo") = "/tmp/foo.elapsed"
      ∧ resolvedPath (timerName (some "/tmp//foo")) = ["tmp", "foo.elapsed"]
      ∧ resolvedPath (timerName (some "/tmp/foo")) = ["tmp", "foo.elapsed"]) := by
  refine ⟨⟨by decide, by decide, ?_, ?_, by decide, by decide, by decide, by decide, by decide⟩,
    ⟨?_, ?_, by decide, by decide, by decide, by decide, by decide⟩⟩
  · exact fun h => absurd ((head?_eq_some_iff_beginsWith '/' "./foo").2 h) (by decide)
  · exact fun h => absurd ((head?_eq_some_iff_beginsWith '/' "foo").2 h) (by decide)
  · exact (head?_eq_some_iff_beginsWith '/' "/tmp//foo").1 (by decide)
  · exact (head?_eq_some_iff_beginsWith '/' "/tmp/foo").1 (by decide)

/-- C20, amended. `timerName` is injective on the non-empty names that do not begin with `/`
and injective on the names that begin with `/`, so two distinct relative names, or two distinct
absolute names, never have the same path string.  They can still share a timer file: for every
non-empty relative name `n` the name `./n` is another relative name whose path names the same
file.  And `timerName` is not injective overall: a non-empty relative name `n` and the absolute
name `/tmp/n` have the same path, and so have the empty name and the name `timer$tart`;
`foo` and `/tmp/foo`, for one, are different names of one timer. -/
theorem timerName_injectivity :
    (∀ a b : String, a ≠ "" → b ≠ "" → ¬ beginsWith '/' a → ¬ beginsWith '/' b →
        timerName (some a) = timerName (some b) → a = b)
    ∧ (∀ a b : String, beginsWith '/' a → beginsWith '/' b →
        timerName (some a) = timerName (some b) → a = b)
    ∧ (∀ n : String, n ≠ "" → ¬ beginsWith '/' n →
        "./" ++ n ≠ "" ∧ ¬ beginsWith '/' ("./" ++ n) ∧ "./" ++ n ≠ n
        ∧ timerName (some ("./" ++ n)) ≠ timerName (some n)
        ∧ resolvedPath (timerName (some ("./" ++ n))) = resolvedPath (timerName (some n)))
    ∧ (∀ n : String, n ≠ "" → ¬ beginsWith '/' n →
        timerName (some n) = timerName (some ("/tmp/" ++ n)) ∧ n ≠ "/tmp/" ++ n)
    ∧ timerName (some "") = timerName (some "timer$tart")
    ∧ ("" : String) ≠ "timer$tart"
    ∧ timerName (some "foo") = timerName (some "/tmp/foo") := by
  have hrel : ∀ a b : String, a ≠ "" → b ≠ "" → ¬ beginsWith '/' a → ¬ beginsWith '/' b →
      timerName (some a) = timerName (some b) → a = b := by
    intro a b ha hb hra hrb h
    rw [timerName_relative a ha hra, timerName_relative b hb hrb] at h
    exact string_append_left_cancel "/tmp/" a b (string_append_right_cancel _ _ ".elapsed" h)
  refine ⟨hrel, ?_, ?_, ?_, by decide, by decide, by decide⟩
  · intro a b ha hb h
    rw [timerName_absolute a ha, timerName_absolute b hb] at h
    exact string_append_right_cancel _ _ ".elapsed" h
  · intro n hne hn
    obtain ⟨h1, h2, h3⟩ := dot_slash_relative n
    exact ⟨h1, h2, h3, fun h => h3 (hrel _ _ h1 hne h2 hn h), timerName_dot_slash n hne hn⟩
  · intro n hne hrel
    have habs : beginsWith '/' ("/tmp/" ++ n) := ⟨"tmp/" ++ n, by
      rw [← String.append_assoc]; rfl⟩
    refine ⟨by rw [timerName_relative n hne hrel, timerName_absolute _ habs], ?_⟩
    intro h
    have hl := congrArg String.length h
    have h5 : ("/tmp/" : String).length = 5 := by decide
    rw [String.length_append, h5] at hl
    omega

/-! ## Decimal numerals -/

theorem digitChar_toNat (d : Nat) (h : d < 10) : (Nat.digitChar d).toNat - 48 = d := by
  interval_cases d <;> rfl

theorem digitChar_ne_sep (d : Nat) (h : d < 10) :
    Nat.digitChar d ≠ ' ' ∧ Nat.digitChar d ≠ '.' := by
  interval_cases d <;> decide

theorem digitChar_injective : ∀ a < 10, ∀ b < 10, Nat.digitChar a = Nat.digitChar b → a = b := by
  decide

theorem toDigitsCore_foldl (f : Nat) : ∀ (n : Nat) (ds : List Char), n < f →
    (Nat.toDigitsCore 10 f n ds).foldl (fun acc c => 10 * acc + (c.toNat - 48)) 0
      = ds.foldl (fun acc c => 10 * acc + (c.toNat - 48)) n := by
  induction f with
  | zero => intro n ds h; omega
  | succ k ih =>
    intro n ds h
    have hd := digitChar_toNat (n % 10) (Nat.mod_lt _ (by decide))
    simp only [Nat.toDigitsCore]
    split_ifs with h0
    · simp only [List.foldl_cons, hd]
      congr 1
      omega
    · rw [ih (n / 10) _ (by omega)]
      simp only [List.foldl_cons, hd]
      congr 1
      omega

theorem decimalValue_repr (n : Nat) : decimalValue (Nat.repr n).data = n := by
  simp only [Nat.repr, Nat.toDigits, List.asString, decimalValue]
  rw [toDigitsCore_foldl (n + 1) n [] (by omega)]
  rfl

theorem repr_injective (a b : Nat) (h : Nat.repr a = Nat.repr b) : a = b := by
  have := congrArg (fun s => decimalValue s.data) h
  simpa [decimalValue_repr] using this

theorem toDigitsCore_no_sep (f : Nat) : ∀ (n : Nat) (ds : List Char),
    ∀ c ∈ Nat.toDigitsCore 10 f n ds, c ∈ ds ∨ (c ≠ ' ' ∧ c ≠ '.') := by
  induction f with
  | zero => intro n ds c hc; exact Or.inl hc
  | succ k ih =>
    intro n ds c hc
    have hd := digitChar_ne_sep (n % 10) (Nat.mod_lt _ (by decide))
    simp only [Nat.toDigitsCore] at hc
    split_ifs at hc with h0
    · rcases List.mem_cons.1 hc with h | h
      · exact Or.inr (h ▸ hd)
      · exact Or.inl h
    · rcases ih _ _ c hc with h | h
      · rcases List.mem_cons.1 h with h | h
        · exact Or.inr (h ▸ hd)
        · exact Or.inl h
      · exact Or.inr h

theorem repr_no_sep (n : Nat) : ∀ c ∈ (Nat.repr n).data, c ≠ ' ' ∧ c ≠ '.' := by
  intro c hc
  simp only [Nat.repr, Nat.toDigits, List.asString] at hc
  rcases toDigitsCore_no_sep _ _ _ c hc with h | h
  · simp at h
  · exact h

theorem list_split_unique {α : Type} (sep : α) : ∀ (xs ys r r' : List α),
    (∀ c ∈ xs, c ≠ sep) → (∀ c ∈ ys, c ≠ sep) → xs ++ sep :: r = ys ++ sep :: r' →
    xs = ys ∧ r = r' := by
  intro xs
  induction xs with
  | nil =>
    intro ys r r' _ hy h
    cases ys with
    | nil => simpa using h
    | cons y ys =>
      simp only [List.nil_append, List.cons_append, List.cons.injEq] at h
      exact absurd h.1.symm (hy y (List.mem_cons_self _ _))
  | cons x xs ih =>
    intro ys r r' hx hy h
    cases ys with
    | nil =>
      simp only [List.nil_append, List.cons_append, List.cons.injEq] at h
      exact absurd h.1 (hx x (List.mem_cons_self _ _))
    | cons y ys =>
      simp only [List.cons_append, List.cons.injEq] at h
      obtain ⟨h1, h2⟩ := ih ys r r' (fun c hc => hx c (List.mem_cons_of_mem _ hc))
        (fun c hc => hy c (List.mem_cons_of_mem _ hc)) h.2
      exact ⟨by rw [h.1, h1], h2⟩

/-- Two texts that start with a decimal numeral followed by the separator `sep` (a space or a
dot) agree only if the numbers agree and the remainders agree. -/
theorem numeral_split (sep : Char) (hsep : sep = ' ' ∨ sep = '.') (a b : Nat) (r r' : String)
    (h : Nat.repr a ++ (String.singleton sep ++ r) = Nat.repr b ++ (String.singleton sep ++ r')) :
    a = b ∧ r = r' := by
  have hd := congrArg String.data h
  simp only [String.data_append] at hd
  have ha : ∀ c ∈ (Nat.repr a).data, c ≠ sep := fun c hc => by
    rcases hsep with rfl | rfl
    · exact (repr_no_sep a c hc).1
    · exact (repr_no_sep a c hc).2
  have hb : ∀ c ∈ (Nat.repr b).data, c ≠ sep := fun c hc => by
    rcases hsep with rfl | rfl
    · exact (repr_no_sep b c hc).1
    · exact (repr_no_sep b c hc).2
  have hs : (String.singleton sep).data = [sep] := rfl
  rw [hs] at hd
  obtain ⟨h1, h2⟩ := list_split_unique sep _ _ _ _ ha hb hd
  exact ⟨repr_injective a b (String.ext h1), String.ext h2⟩

theorem threeDigits_injective (a b : Nat) (ha : a < 1000) (hb : b < 1000)
    (h : threeDigits a = threeDigits b) : a = b := by
  have hd := congrArg String.data h
  simp only [threeDigits, List.cons.injEq, and_true] at hd
  obtain ⟨h1, h2, h3⟩ := hd
  have e1 := digitChar_injective _ (Nat.mod_lt _ (by decide)) _ (Nat.mod_lt _ (by decide)) h1
  have e2 := digitChar_injective _ (Nat.mod_lt _ (by decide)) _ (Nat.mod_lt _ (by decide)) h2
  have e3 := digitChar_injective _ (Nat.mod_lt _ (by decide)) _ (Nat.mod_lt _ (by decide)) h3
  omega

/-! ## C18: the duration breakdown is lossless and in range -/

/-- The rendering of an elapsed time of at least one day, with every separator set apart. -/
theorem specRendering_of_day (n : Nat) (hday : 86400000 ≤ n) :
    specRendering n
      = Nat.repr (n / 86400000) ++ (String.singleton ' '
        ++ ((if n / 86400000 = 1 then "day " else "days ")
        ++ (Nat.repr (n / 3600000 % 24) ++ (String.singleton ' '
        ++ ((if n / 3600000 % 24 = 1 then "hour " else "hours ")
        ++ (Nat.repr (n / 60000 % 60) ++ (String.singleton ' '
        ++ ((if n / 60000 % 60 = 1 then "minute " else "minutes ")
        ++ (Nat.repr (n / 1000 % 60) ++ (String.singleton '.'
        ++ (threeDigits (n % 1000) ++ " seconds"))))))))))) := by
  have hd : 0 < n / 86400000 := Nat.div_pos hday (by decide)
  have e1 : ∀ v : Nat, (if v = 1 then " day " else " days ")
      = String.singleton ' ' ++ (if v = 1 then "day " else "days ") := fun v => by
    split_ifs <;> rfl
  have e2 : ∀ v : Nat, (if v = 1 then " hour " else " hours ")
      = String.singleton ' ' ++ (if v = 1 then "hour " else "hours ") := fun v => by
    split_ifs <;> rfl
  have e3 : ∀ v : Nat, (if v = 1 then " minute " else " minutes ")
      = String.singleton ' ' ++ (if v = 1 then "minute " else "minutes ") := fun v => by
    split_ifs <;> rfl
  have e4 : ("." : String) = String.singleton '.' := rfl
  rw [specRendering_eq_pluralRendering]
  simp only [pluralRendering, gt_iff_lt, hd, true_or, if_true, e1, e2, e3, e4,
    String.append_assoc]

theorem specRendering_injective_of_day (a b : Nat) (ha : 86400000 ≤ a) (hb : 86400000 ≤ b)
    (h : specRendering a = specRendering b) : a = b := by
  rw [specRendering_of_day a ha, specRendering_of_day b hb] at h
  obtain ⟨hD, h⟩ := numeral_split ' ' (Or.inl rfl) _ _ _ _ h
  rw [hD] at h
  obtain ⟨hH, h⟩ := numeral_split ' ' (Or.inl rfl) _ _ _ _ (string_append_left_cancel _ _ _ h)
  rw [hH] at h
  obtain ⟨hM, h⟩ := numeral_split ' ' (Or.inl rfl) _ _ _ _ (string_append_left_cancel _ _ _ h)
  rw [hM] at h
  obtain ⟨hS, h⟩ := numeral_split '.' (Or.inr rfl) _ _ _ _ (string_append_left_cancel _ _ _ h)
  have hF := threeDigits_injective _ _ (Nat.mod_lt a (by decide)) (Nat.mod_lt b (by decide))
    (string_append_right_cancel _ _ _ h)
  omega

theorem breakdown_natCast (n : Nat) :
    breakdown (n : Int)
      = { seconds := ((n / 1000 % 60 : Nat) : Int), minutes := ((n / 60000 % 60 : Nat) : Int),
          hours := ((n / 3600000 % 24 : Nat) : Int), days := ((n / 86400000 : Nat) : Int),
          millis := ((n % 1000 : Nat) : Int) } := by
  have hd : (n : Int).tdiv 86400000 = ((n / 86400000 : Nat) : Int) := by
    rw [Int.ofNat_tdiv]; rfl
  have hh : ((n : Int).tdiv 3600000).tmod 24 = ((n / 3600000 % 24 : Nat) : Int) := by
    rw [Int.ofNat_tmod, Int.ofNat_tdiv]; rfl
  have hm : ((n : Int).tdiv 60000).tmod 60 = ((n / 60000 % 60 : Nat) : Int) := by
    rw [Int.ofNat_tmod, Int.ofNat_tdiv]; rfl
  have hs : ((n : Int).tdiv 1000).tmod 60 = ((n / 1000 % 60 : Nat) : Int) := by
    rw [Int.ofNat_tmod, Int.ofNat_tdiv]; rfl
  have hf : (n : Int).tmod 1000 = ((n % 1000 : Nat) : Int) := by
    rw [Int.ofNat_tmod]; rfl
  simp only [breakdown, hd, hh, hm, hs, hf]

theorem specRendering_eq_tupleRendering (n : Nat) :
    specRendering n
      = tupleRendering (n / 86400000) (n / 3600000 % 24) (n / 60000 % 60) (n / 1000 % 60)
          (n % 1000) := rfl

/-- C18. For a non-negative elapsed time `ms` the values that `showTimer` computes
(`breakdown ms`) are in range, `0 ≤ seconds < 60`, `0 ≤ minutes < 60`, `0 ≤ hours < 24`,
`0 ≤ ms rem 1000 < 1000`, `0 ≤ days`, and recompose to `ms`; the text that `showTimer` prints
for `ms` is the rendering of exactly these five values; hence the tuple (days, hours, minutes,
seconds, millis) determines `ms`, and two non-negative elapsed times of at least one day with
the same printed text are equal. -/
theorem breakdown_lossless (ms : Int) (hms : 0 ≤ ms) :
    (0 ≤ (breakdown ms).seconds ∧ (breakdown ms).seconds < 60)
    ∧ (0 ≤ (breakdown ms).minutes ∧ (breakdown ms).minutes < 60)
    ∧ (0 ≤ (breakdown ms).hours ∧ (breakdown ms).hours < 24)
    ∧ (0 ≤ (breakdown ms).millis ∧ (breakdown ms).millis < 1000)
    ∧ 0 ≤ (breakdown ms).days
    ∧ (breakdown ms).days * 86400000 + (breakdown ms).hours * 3600000
        + (breakdown ms).minutes * 60000 + (breakdown ms).seconds * 1000
        + (breakdown ms).millis = ms
    ∧ elapsedText ms
        = tupleRendering (breakdown ms).days.toNat (breakdown ms).hours.toNat
            (breakdown ms).minutes.toNat (breakdown ms).seconds.toNat (breakdown ms).millis.toNat
    ∧ (∀ (w : World) (startTime : Int), startTime ≠ 0 → elapsedMs startTime w = ms →
        showTimer startTime w
          = .ret () ((now w).2.print
              (tupleRendering (breakdown ms).days.toNat (breakdown ms).hours.toNat
                (breakdown ms).minutes.toNat (breakdown ms).seconds.toNat
                (breakdown ms).millis.toNat ++ w.newline)))
    ∧ (∀ ms2 : Int, 0 ≤ ms2 → breakdown ms2 = breakdown ms → ms2 = ms)
    ∧ (∀ ms2 : Int, 86400000 ≤ ms → 86400000 ≤ ms2 →
        elapsedText ms2 = elapsedText ms → ms2 = ms) := by
  obtain ⟨n, rfl⟩ := Int.eq_ofNat_of_zero_le hms
  have htext : elapsedText (n : Int)
      = tupleRendering (breakdown (n : Int)).days.toNat (breakdown (n : Int)).hours.toNat
          (breakdown (n : Int)).minutes.toNat (breakdown (n : Int)).seconds.toNat
          (breakdown (n : Int)).millis.toNat := by
    rw [elapsedText_natCast, specRendering_eq_tupleRendering, breakdown_natCast]
    simp only [Int.toNat_ofNat]
  refine ⟨?_, ?_, ?_, ?_, ?_, ?_, htext, ?_, ?_, ?_⟩
  · rw [breakdown_natCast]; simp only; omega
  · rw [breakdown_natCast]; simp only; omega
  · rw [breakdown_natCast]; simp only; omega
  · rw [breakdown_natCast]; simp only; omega
  · rw [breakdown_natCast]; simp only; omega
  · rw [breakdown_natCast]; simp only; omega
  · intro w startTime hstart he
    rw [showTimer_of_ne_zero w startTime hstart, he, htext]
  · intro ms2 h2 he
    obtain ⟨m, rfl⟩ := Int.eq_ofNat_of_zero_le h2
    rw [breakdown_natCast, breakdown_natCast] at he
    simp only [Breakdown.mk.injEq] at he
    omega
  · intro ms2 h1 h2 ht
    obtain ⟨b, rfl⟩ := Int.eq_ofNat_of_zero_le (show (0 : Int) ≤ ms2 by omega)
    rw [elapsedText_natCast, elapsedText_natCast] at ht
    have := specRendering_injective_of_day b n (by omega) (by omega) ht
    omega

theorem breakdown_lossless_witness :
    (0 : Int) ≤ 90061001
    ∧ ((breakdown 90061001).days = 1 ∧ (breakdown 90061001).hours = 1
        ∧ (breakdown 90061001).minutes = 1 ∧ (breakdown 90061001).seconds = 1
        ∧ (breakdown 90061001).millis = 1)
    ∧ (breakdown 90061001).days * 86400000 + (breakdown 90061001).hours * 3600000
        + (breakdown 90061001).minutes * 60000 + (breakdown 90061001).seconds * 1000
        + (breakdown 90061001).millis = 90061001
    ∧ elapsedText 90061001 = "1 day 1 hour 1 minute 1.001 seconds"
    ∧ elapsedText 90061001
        = tupleRendering (breakdown 90061001).days.toNat (breakdown 90061001).hours.toNat
            (breakdown 90061001).minutes.toNat (breakdown 90061001).seconds.toNat
            (breakdown 90061001).millis.toNat
    ∧ (∀ ms2 : Int, 0 ≤ ms2 → breakdown ms2 = breakdown 90061001 → ms2 = 90061001)
    ∧ (∀ ms2 : Int, 86400000 ≤ (90061001 : Int) → 86400000 ≤ ms2 →
        elapsedText ms2 = elapsedText 90061001 → ms2 = 90061001) :=
  ⟨by decide, by decide, (breakdown_lossless 90061001 (by decide)).2.2.2.2.2.1, by decide,
    (breakdown_lossless 90061001 (by decide)).2.2.2.2.2.2.1,
    (breakdown_lossless 90061001 (by decide)).2.2.2.2.2.2.2.2.1,
    (breakdown_lossless 90061001 (by decide)).2.2.2.2.2.2.2.2.2⟩

/-! ## The argument loop -/

theorem Outcome.bind_undefined {α β : Type} (f : α → World → Outcome β) :
    (Outcome.undefined : Outcome α).bind f = .undefined := rfl

theorem Outcome.bind_congr {α β : Type} (o : Outcome α) (f g : α → World → Outcome β)
    (h : ∀ a w, o = .ret a w → f a w = g a w) : o.bind f = o.bind g := by
  cases o with
  | ret a w => exact h a w rfl
  | exit status w => rfl
  | undefined => rfl

theorem parseArgs_cons (a : String) (rest : List String) (l : Locals) (w : World) :
    parseArgs (a :: rest) l w
      = if a.data.head? = some '-' then
          if a.data.tail.head? = some '-' then
            if a = "--help" then showHelp w
            else .exit 1 (w.print ("Unexpected option: " ++ a
              ++ " (Terminated, see -h for help)\n"))
          else
            (parseShortOptions a.data.tail l.restart w).bind fun restart w1 =>
              parseArgs rest { l with restart := restart } w1
        else if l.cmd.data.isEmpty then
          match upcase (some a) with
          | some up => parseArgs rest { l with cmd := String.mk (up.data.take MAXINPUTLENGTH) } w
          | none => .undefined
        else if w.timer.data.isEmpty then
          parseArgs rest l { w with timer := String.mk (a.data.take MAXTIMERNAME) }
        else
          .exit 1 (w.print ("Unexpected argument: " ++ a
            ++ " (Terminated, see -h for help)\n")) := by
  rfl

theorem World.sameEnvironment_refl (w : World) : w.sameEnvironment w :=
  ⟨rfl, rfl, rfl, rfl, rfl⟩

theorem World.sameEnvironment_trans (w w1 w2 : World) (h1 : w.sameEnvironment w1)
    (h2 : w1.sameEnvironment w2) : w.sameEnvironment w2 := by
  obtain ⟨a1, a2, a3, a4, a5⟩ := h1
  obtain ⟨b1, b2, b3, b4, b5⟩ := h2
  exact ⟨b1.trans a1, b2.trans a2, b3.trans a3, b4.trans a4, b5.trans a5⟩

/-- A group of short options made of `n` and `r` only returns; it touches only `newline` and
`restart`. -/
theorem parseShortOptions_good : ∀ (cs : List Char) (restart : Bool) (w : World),
    (cs.any fun c => decide (c ≠ 'n') && decide (c ≠ 'r')) = false →
    ∃ (r1 : Bool) (w1 : World), parseShortOptions cs restart w = .ret r1 w1
      ∧ w.sameEnvironment w1 ∧ w1.timer = w.timer ∧ w1.out = w.out := by
  intro cs
  induction cs with
  | nil => intro restart w _; exact ⟨restart, w, rfl, w.sameEnvironment_refl, rfl, rfl⟩
  | cons c cs ih =>
    intro restart w h
    simp only [List.any_cons, Bool.or_eq_false_iff, Bool.and_eq_false_imp, decide_eq_true_eq,
      decide_eq_false_iff_not, ne_eq, not_not] at h
    by_cases hn : c = 'n'
    · obtain ⟨r1, w1, e, s, t, o⟩ := ih restart { w with newline := "" } h.2
      exact ⟨r1, w1, by rw [parseShortOptions, if_pos hn, e], s, t, o⟩
    · have hr : c = 'r' := h.1 hn
      obtain ⟨r1, w1, e, s, t, o⟩ := ih true w h.2
      exact ⟨r1, w1, by rw [parseShortOptions, if_neg hn, if_pos hr, e], s, t, o⟩

/-- A group of short options with a letter other than `n` and `r` ends the run with status 1. -/
theorem parseShortOptions_bad : ∀ (cs : List Char) (restart : Bool) (w : World),
    (cs.any fun c => decide (c ≠ 'n') && decide (c ≠ 'r')) = true →
    ∃ w1 : World, parseShortOptions cs restart w = .exit 1 w1 ∧ w.sameEnvironment w1 := by
  intro cs
  induction cs with
  | nil => intro restart w h; simp at h
  | cons c cs ih =>
    intro restart w h
    by_cases hn : c = 'n'
    · have h2 : (cs.any fun c => decide (c ≠ 'n') && decide (c ≠ 'r')) = true := by
        simpa [hn] using h
      obtain ⟨w1, e, s⟩ := ih restart { w with newline := "" } h2
      exact ⟨w1, by rw [parseShortOptions, if_pos hn, e], s⟩
    · by_cases hr : c = 'r'
      · have h2 : (cs.any fun c => decide (c ≠ 'n') && decide (c ≠ 'r')) = true := by
          simpa [hr] using h
        obtain ⟨w1, e, s⟩ := ih true w h2
        exact ⟨w1, by rw [parseShortOptions, if_neg hn, if_pos hr, e], s⟩
      · by_cases hh : c = '?' ∨ c = 'h'
        · exact ⟨w.print helpText, by
            rw [parseShortOptions, if_neg hn, if_neg hr, if_pos hh]; rfl,
            ⟨rfl, rfl, rfl, rfl, rfl⟩⟩
        · exact ⟨w.print ("Unexpected option: -" ++ String.singleton c
              ++ " (Terminated, see -h for help)\n"), by
            rw [parseShortOptions, if_neg hn, if_neg hr, if_neg hh],
            ⟨rfl, rfl, rfl, rfl, rfl⟩⟩

theorem isEmpty_take_iff (n : Nat) (hn : 0 < n) (cs : List Char) :
    (cs.take n).isEmpty = cs.isEmpty := by
  cases cs with
  | nil => simp
  | cons c cs =>
    cases n with
    | zero => omega
    | succ n => simp

theorem upcase_some (a : String) (h : a.length ≤ MAXINPUTLENGTH + 1) :
    upcase (some a) = some (upperCased a) := by
  have h' : a.length + 1 ≤ MAXINPUTLENGTH + 2 := by omega
  simp only [upcase, if_pos h', upperCased]

theorem commandToken_cons_option (a : String) (rest : List String)
    (h : a.data.head? = some '-') : commandToken (a :: rest) = commandToken rest := by
  simp [commandToken, plainArgs, isOption, h]

theorem commandToken_cons_empty (a : String) (rest : List String)
    (h : ¬ a.data.head? = some '-') (he : a.data.isEmpty = true) :
    commandToken (a :: rest) = commandToken rest := by
  simp [commandToken, plainArgs, isOption, h, he]

theorem commandToken_cons_given (a : String) (rest : List String)
    (h : ¬ a.data.head? = some '-') (he : a.data.isEmpty = false) :
    commandToken (a :: rest) = some a := by
  simp [commandToken, plainArgs, isOption, h, he]

theorem plainArgs_cons_option (a : String) (rest : List String)
    (h : a.data.head? = some '-') : plainArgs (a :: rest) = plainArgs rest := by
  simp [plainArgs, isOption, h]

theorem plainArgs_cons_plain (a : String) (rest : List String)
    (h : ¬ a.data.head? = some '-') : plainArgs (a :: rest) = a :: plainArgs rest := by
  simp [plainArgs, isOption, h]

theorem length_of_isEmpty (a : String) (he : a.data.isEmpty = true) : a.length = 0 := by
  have : a.data = [] := List.isEmpty_iff.1 he
  show a.data.length = 0
  rw [this]; rfl

/-- The argument loop ends the run with status 1, the environment untouched, as soon as the
arguments hold a bad option or an argument beyond the command and the timer name. -/
theorem parseArgs_exits : ∀ (args : List String) (l : Locals) (w : World),
    (l.cmd.data.isEmpty = true → ∀ t, commandToken args = some t → t.length ≤ 65) →
    (args.any badOption = true
      ∨ extraArgumentFrom (filledSlots l w) (plainArgs args) = true) →
    ∃ w1 : World, parseArgs args l w = .exit 1 w1 ∧ w.sameEnvironment w1 := by
  intro args
  induction args with
  | nil =>
    intro l w _ h
    rcases h with h | h
    · simp at h
    · simp [plainArgs, extraArgumentFrom] at h
  | cons a rest ih =>
    intro l w htok h
    rw [parseArgs_cons]
    by_cases hopt : a.data.head? = some '-'
    · rw [if_pos hopt]
      by_cases hdash : a.data.tail.head? = some '-'
      · rw [if_pos hdash]
        by_cases hhelp : a = "--help"
        · rw [if_pos hhelp]; exact ⟨_, rfl, w.sameEnvironment_refl⟩
        · rw [if_neg hhelp]; exact ⟨_, rfl, w.sameEnvironment_refl⟩
      · rw [if_neg hdash]
        by_cases hbad : (a.data.tail.any fun c => decide (c ≠ 'n') && decide (c ≠ 'r')) = true
        · obtain ⟨w1, e, s⟩ := parseShortOptions_bad _ l.restart w hbad
          exact ⟨w1, by rw [e, Outcome.bind_exit], s⟩
        · have hgood := Bool.eq_false_iff.2 hbad
          obtain ⟨r1, w1, e, s, t, _⟩ := parseShortOptions_good _ l.restart w hgood
          rw [e, Outcome.bind_ret]
          have hba : badOption a = false := by
            simp only [badOption, hdash, decide_False, Bool.false_or, hgood, Bool.and_false]
          have hfill : filledSlots { l with restart := r1 } w1 = filledSlots l w := by
            simp only [filledSlots, t]
          obtain ⟨w2, e2, s2⟩ := ih { l with restart := r1 } w1
            (fun hc t ht => htok hc t (by rw [commandToken_cons_option a rest hopt]; exact ht))
            (by
              rw [hfill]
              rcases h with h | h
              · left; simpa [hba] using h
              · right; rwa [plainArgs_cons_option a rest hopt] at h)
          exact ⟨w2, e2, World.sameEnvironment_trans _ _ _ s s2⟩
    · rw [if_neg hopt]
      have hba : badOption a = false := by simp [badOption, isOption, hopt]
      have hrest : rest.any badOption = true
          ∨ extraArgumentFrom (filledSlots l w) (a :: plainArgs rest) = true := by
        rcases h with h | h
        · left; simpa [hba] using h
        · right; rwa [plainArgs_cons_plain a rest hopt] at h
      by_cases hcmd : l.cmd.data.isEmpty = true
      · rw [if_pos hcmd]
        have hfilled : ¬ 2 ≤ filledSlots l w := by
          simp only [filledSlots, hcmd, if_true]; split_ifs <;> omega
        by_cases he : a.data.isEmpty = true
        · rw [upcase_some a (by rw [length_of_isEmpty a he]; simp [MAXINPUTLENGTH])]
          have hcmd1 : (String.mk ((upperCased a).data.take MAXINPUTLENGTH)).data.isEmpty
              = true := by
            show ((a.data.map Char.toUpper).take MAXINPUTLENGTH).isEmpty = true
            rw [List.isEmpty_iff.1 he]; rfl
          have hfill : filledSlots
              { l with cmd := String.mk ((upperCased a).data.take MAXINPUTLENGTH) } w
              = filledSlots l w := by
            simp only [filledSlots, hcmd1, hcmd]
          exact ih _ w
            (fun _ t ht => htok hcmd t (by
              rw [commandToken_cons_empty a rest hopt he]; exact ht))
            (by
              rw [hfill]
              rcases hrest with h | h
              · exact Or.inl h
              · right
                rw [extraArgumentFrom, if_neg hfilled, if_pos he] at h
                exact h)
        · have he' : a.data.isEmpty = false := Bool.eq_false_iff.2 he
          have hlen : a.length ≤ 65 :=
            htok hcmd a (commandToken_cons_given a rest hopt he')
          rw [upcase_some a (by simp only [MAXINPUTLENGTH]; omega)]
          have hcmd1 : (String.mk ((upperCased a).data.take MAXINPUTLENGTH)).data.isEmpty
              = false := by
            show ((a.data.map Char.toUpper).take MAXINPUTLENGTH).isEmpty = false
            rw [isEmpty_take_iff _ (by decide), List.isEmpty_eq_true] at *
            simpa using he
          have hfill : filledSlots
              { l with cmd := String.mk ((upperCased a).data.take MAXINPUTLENGTH) } w
              = filledSlots l w + 1 := by
            simp only [filledSlots, hcmd1, hcmd]; simp; omega
          exact ih _ w (fun hc => by rw [hcmd1] at hc; cases hc)
            (by
              rw [hfill]
              rcases hrest with h | h
              · exact Or.inl h
              · right
                rw [extraArgumentFrom, if_neg hfilled, if_neg he] at h
                exact h)
      · rw [if_neg hcmd]
        have hcmd' : l.cmd.data.isEmpty = false := Bool.eq_false_iff.2 hcmd
        by_cases htim : w.timer.data.isEmpty = true
        · rw [if_pos htim]
          have hfilled : ¬ 2 ≤ filledSlots l w := by
            simp only [filledSlots, hcmd', htim]; simp
          by_cases he : a.data.isEmpty = true
          · have ht1 : (String.mk (a.data.take MAXTIMERNAME)).data.isEmpty = true := by
              show (a.data.take MAXTIMERNAME).isEmpty = true
              rw [List.isEmpty_iff.1 he]; rfl
            have hfill : filledSlots l { w with timer := String.mk (a.data.take MAXTIMERNAME) }
                = filledSlots l w := by
              simp only [filledSlots, ht1, htim]
            exact (ih l _ (fun hc => by rw [hcmd'] at hc; cases hc)
              (by
                rw [hfill]
                rcases hrest with h | h
                · exact Or.inl h
                · right
                  rw [extraArgumentFrom, if_neg hfilled, if_pos he] at h
                  exact h)).imp fun w1 hw1 =>
                ⟨hw1.1, World.sameEnvironment_trans w _ w1 ⟨rfl, rfl, rfl, rfl, rfl⟩ hw1.2⟩
          · have ht1 : (String.mk (a.data.take MAXTIMERNAME)).data.isEmpty = false := by
              show (a.data.take MAXTIMERNAME).isEmpty = false
              rw [isEmpty_take_iff _ (by decide)]
              exact Bool.eq_false_iff.2 he
            have hfill : filledSlots l { w with timer := String.mk (a.data.take MAXTIMERNAME) }
                = filledSlots l w + 1 := by
              simp only [filledSlots, ht1, htim, hcmd']; simp
            exact (ih l _ (fun hc => by rw [hcmd'] at hc; cases hc)
              (by
                rw [hfill]
                rcases hrest with h | h
                · exact Or.inl h
                · right
                  rw [extraArgumentFrom, if_neg hfilled, if_neg he] at h
                  exact h)).imp fun w1 hw1 =>
                ⟨hw1.1, World.sameEnvironment_trans w _ w1 ⟨rfl, rfl, rfl, rfl, rfl⟩ hw1.2⟩
        · rw [if_neg htim]
          exact ⟨_, rfl, w.sameEnvironment_refl⟩

/-- The argument loop returns, with the environment and the output untouched, when the
arguments hold no bad option and nothing beyond the command and the timer name; the command it
leaves in `cmd` is the upper-cased command token, cut to `MAXINPUTLENGTH` characters. -/
theorem parseArgs_returns : ∀ (args : List String) (l : Locals) (w : World),
    (l.cmd.data.isEmpty = true → ∀ t, commandToken args = some t → t.length ≤ 65) →
    args.any badOption = false →
    extraArgumentFrom (filledSlots l w) (plainArgs args) = false →
    ∃ (l1 : Locals) (w1 : World), parseArgs args l w = .ret l1 w1
      ∧ w.sameEnvironment w1 ∧ w1.out = w.out
      ∧ (l.cmd.data.isEmpty = false → l1.cmd = l.cmd)
      ∧ (l.cmd.data.isEmpty = true → ∀ t, commandToken args = some t →
          l1.cmd = String.mk ((upperCased t).data.take MAXINPUTLENGTH)) := by
  intro args
  induction args with
  | nil =>
    intro l w _ _ _
    exact ⟨l, w, rfl, w.sameEnvironment_refl, rfl, fun _ => rfl,
      fun _ t ht => by simp [commandToken, plainArgs] at ht⟩
  | cons a rest ih =>
    intro l w htok hbad hextra
    rw [parseArgs_cons]
    have hbad2 : badOption a = false ∧ rest.any badOption = false := by
      simpa [List.any_cons, Bool.or_eq_false_iff] using hbad
    by_cases hopt : a.data.head? = some '-'
    · rw [if_pos hopt]
      have hb : (decide (a.data.tail.head? = some '-')
          || a.data.tail.any fun c => decide (c ≠ 'n') && decide (c ≠ 'r')) = false := by
        have := hbad2.1
        simpa [badOption, isOption, hopt] using this
      rw [Bool.or_eq_false_iff] at hb
      have hdash : ¬ a.data.tail.head? = some '-' := by simpa using hb.1
      rw [if_neg hdash]
      obtain ⟨r1, w1, e, s, t, o⟩ := parseShortOptions_good _ l.restart w hb.2
      rw [e, Outcome.bind_ret]
      have hfill : filledSlots { l with restart := r1 } w1 = filledSlots l w := by
        simp only [filledSlots, t]
      obtain ⟨l2, w2, e2, s2, o2, c1, c2⟩ := ih { l with restart := r1 } w1
        (fun hc t ht => htok hc t (by rw [commandToken_cons_option a rest hopt]; exact ht))
        hbad2.2 (by rw [hfill, ← plainArgs_cons_option a rest hopt]; exact hextra)
      exact ⟨l2, w2, e2, World.sameEnvironment_trans _ _ _ s s2, o2.trans o, c1,
        fun hc t ht => c2 hc t (by rw [← commandToken_cons_option a rest hopt]; exact ht)⟩
    · rw [if_neg hopt]
      rw [plainArgs_cons_plain a rest hopt] at hextra
      by_cases hcmd : l.cmd.data.isEmpty = true
      · rw [if_pos hcmd]
        have hfilled : ¬ 2 ≤ filledSlots l w := by
          simp only [filledSlots, hcmd, if_true]; split_ifs <;> omega
        rw [extraArgumentFrom, if_neg hfilled] at hextra
        by_cases he : a.data.isEmpty = true
        · rw [upcase_some a (by rw [length_of_isEmpty a he]; simp [MAXINPUTLENGTH])]
          rw [if_pos he] at hextra
          have hcmd1 : (String.mk ((upperCased a).data.take MAXINPUTLENGTH)).data.isEmpty
              = true := by
            show ((a.data.map Char.toUpper).take MAXINPUTLENGTH).isEmpty = true
            rw [List.isEmpty_iff.1 he]; rfl
          have hfill : filledSlots
              { l with cmd := String.mk ((upperCased a).data.take MAXINPUTLENGTH) } w
              = filledSlots l w := by
            simp only [filledSlots, hcmd1, hcmd]
          obtain ⟨l2, w2, e2, s2, o2, _, c2⟩ := ih
            { l with cmd := String.mk ((upperCased a).data.take MAXINPUTLENGTH) } w
            (fun _ t ht => htok hcmd t (by
              rw [commandToken_cons_empty a rest hopt he]; exact ht))
            hbad2.2 (by rw [hfill]; exact hextra)
          exact ⟨l2, w2, e2, s2, o2, (fun hc => by rw [hcmd] at hc; cases hc),
            fun _ t ht => c2 hcmd1 t (by
              rw [← commandToken_cons_empty a rest hopt he]; exact ht)⟩
        · have he' : a.data.isEmpty = false := Bool.eq_false_iff.2 he
          have hlen : a.length ≤ 65 :=
            htok hcmd a (commandToken_cons_given a rest hopt he')
          rw [upcase_some a (by simp only [MAXINPUTLENGTH]; omega)]
          rw [if_neg he] at hextra
          have hcmd1 : (String.mk ((upperCased a).data.take MAXINPUTLENGTH)).data.isEmpty
              = false := by
            show ((a.data.map Char.toUpper).take MAXINPUTLENGTH).isEmpty = false
            rw [isEmpty_take_iff _ (by decide), List.isEmpty_eq_true] at *
            simpa using he
          have hfill : filledSlots
              { l with cmd := String.mk ((upperCased a).data.take MAXINPUTLENGTH) } w
              = filledSlots l w + 1 := by
            simp only [filledSlots, hcmd1, hcmd]; simp; omega
          obtain ⟨l2, w2, e2, s2, o2, c1, _⟩ := ih
            { l with cmd := String.mk ((upperCased a).data.take MAXINPUTLENGTH) } w
            (fun hc => by rw [hcmd1] at hc; cases hc) hbad2.2 (by rw [hfill]; exact hextra)
          refine ⟨l2, w2, e2, s2, o2, (fun hc => by rw [hcmd] at hc; cases hc), ?_⟩
          intro _ t ht
          rw [commandToken_cons_given a rest hopt he'] at ht
          cases ht
          exact c1 hcmd1
      · rw [if_neg hcmd]
        have hcmd' : l.cmd.data.isEmpty = false := Bool.eq_false_iff.2 hcmd
        by_cases htim : w.timer.data.isEmpty = true
        · rw [if_pos htim]
          have hfilled : ¬ 2 ≤ filledSlots l w := by
            simp only [filledSlots, hcmd', htim]; simp
          rw [extraArgumentFrom, if_neg hfilled] at hextra
          have hfill : filledSlots l { w with timer := String.mk (a.data.take MAXTIMERNAME) }
              = if a.data.isEmpty then filledSlots l w else filledSlots l w + 1 := by
            have ht1 : (String.mk (a.data.take MAXTIMERNAME)).data.isEmpty = a.data.isEmpty := by
              show (a.data.take MAXTIMERNAME).isEmpty = a.data.isEmpty
              exact isEmpty_take_iff _ (by decide) _
            simp only [filledSlots, ht1, htim, hcmd']
            cases a.data.isEmpty <;> simp
          obtain ⟨l2, w2, e2, s2, o2, c1, _⟩ := ih l
            { w with timer := String.mk (a.data.take MAXTIMERNAME) }
            (fun hc => by rw [hcmd'] at hc; cases hc) hbad2.2 (by rw [hfill]; exact hextra)
          exact ⟨l2, w2, e2, World.sameEnvironment_trans w _ w2 ⟨rfl, rfl, rfl, rfl, rfl⟩ s2,
            o2, c1, fun hc => by rw [hcmd'] at hc; cases hc⟩
        · exfalso
          have hfilled : 2 ≤ filledSlots l w := by
            have htim' : w.timer.data.isEmpty = false := Bool.eq_false_iff.2 htim
            simp only [filledSlots, hcmd', htim']; simp
          rw [extraArgumentFrom, if_pos hfilled] at hextra
          cases hextra

theorem take_of_short (s : String) (n : Nat) (h : s.length ≤ n) :
    String.mk (s.data.take n) = s := by
  apply String.ext
  exact List.take_of_length_le h

theorem upperCased_length (s : String) : (upperCased s).length = s.length := by
  show (s.data.map Char.toUpper).length = s.data.length
  simp

theorem commandToken_ne_nil (args : List String) (tok : String)
    (h : commandToken args = some tok) : args ≠ [] := by
  rintro rfl
  simp [commandToken, plainArgs] at h

/-- A run whose command token is none of the three command words prints `Unknown command`
and returns 0 from `main`. -/
theorem main_unknown_command (args : List String) (w : World) (tok : String)
    (htimer : w.timer = "") (hopt : args.any badOption = false)
    (hextra : extraArgument args = false) (htok : commandToken args = some tok)
    (hlen : tok.length ≤ 63)
    (hcmd : upperCased tok ≠ "START" ∧ upperCased tok ≠ "SHOW" ∧ upperCased tok ≠ "STOP") :
    ∃ w0 : World, main args w
        = .ret 0 (w0.print ("Unknown command: " ++ upperCased tok
            ++ " (Terminated, see -h for help)\n"))
      ∧ w.sameEnvironment w0 ∧ w0.out = w.out := by
  have hfill : filledSlots { cmd := "", restart := false } w = 0 := by
    simp [filledSlots, htimer]
  obtain ⟨l1, w1, e, s, o, _, c2⟩ := parseArgs_returns args { cmd := "", restart := false } w
    (fun _ t ht => by rw [htok] at ht; cases ht; omega) hopt (by rw [hfill]; exact hextra)
  have hc : l1.cmd = upperCased tok := by
    rw [c2 rfl tok htok]
    exact take_of_short _ _ (by rw [upperCased_length]; simp only [MAXINPUTLENGTH]; omega)
  have hne : ¬ (args.length + 1 < 2) := by
    have := commandToken_ne_nil args tok htok
    cases args with
    | nil => exact absurd rfl this
    | cons a rest => simp
  have hl : ¬ MAXINPUTLENGTH ≤ (upperCased tok).length := by
    rw [upperCased_length]; simp only [MAXINPUTLENGTH]; omega
  refine ⟨w1, ?_, s, o⟩
  rw [main, e, Outcome.bind_ret, if_neg hne, hc, execute, if_neg hcmd.1, if_neg hcmd.2.1,
    if_neg hcmd.2.2, if_neg hl]

/-! ## C11: the exit status of an unknown command -/

/-- C11, the code at the failing input `elapsed frobnicate`: no option error, first non-option
argument `frobnicate`, upper-cased none of `START`, `SHOW`, `STOP`; `main` prints the
`Unknown command` message, whose text says `Terminated`, and then returns 0 instead of exiting
with status 1 as the sibling error paths of the argument loop do. -/
theorem unknown_command_status :
    main ["frobnicate"] demoWorld
        = .ret 0 (demoWorld.print "Unknown command: FROBNICATE (Terminated, see -h for help)\n")
    ∧ (main ["frobnicate"] demoWorld).status = some 0
    ∧ (main ["frobnicate"] demoWorld).status ≠ some 1 := by
  have h : main ["frobnicate"] demoWorld
      = .ret 0 (demoWorld.print "Unknown command: FROBNICATE (Terminated, see -h for help)\n") :=
    rfl
  rw [h]
  exact ⟨rfl, rfl, by decide⟩

/-! ## C12: usage errors end the run before any command runs -/

/-- C12, as stated, fails for a third non-option argument that follows an empty one: for
`elapsed start "" x` the argument `x` is the third non-option argument, yet the loop takes it
as the timer name, `START` runs, creates the timer file of `x`, and `main` returns 0. -/
theorem usage_errors_counterexample :
    (plainArgs ["start", "", "x"]).length = 3
    ∧ ∃ w1 : World, main ["start", "", "x"] demoWorld = .ret 0 w1
      ∧ demoWorld.files "/tmp/x.elapsed" = none
      ∧ w1.files "/tmp/x.elapsed" = some (objectBytes false 1700000000000) :=
  ⟨by decide, _, rfl, by decide, by decide⟩

/-- C12, amended. Let the command token, if any, fit the buffer of `upcase` (at most 65
characters) and let the process start with an empty `timer`.  If the argument vector is empty,
or holds anywhere a help option (`-h`, `-?`, `--help`, also inside a group of short options) or
an unknown option (any other argument that begins with `--`, any short option letter other than
`n`, `r`, `h`, `?`), or holds a non-option argument after two non-empty non-option arguments,
then `main` ends in `exit(1)` and the file system, the write permissions and the clock are as
before: no timer file is created, repaired or removed, whichever action is named and wherever
the offending argument stands. -/
theorem usage_errors_exit (args : List String) (w : World) (htimer : w.timer = "")
    (htok : ∀ t, commandToken args = some t → t.length ≤ 65)
    (herr : args = [] ∨ args.any badOption = true ∨ extraArgument args = true) :
    (∃ w1 : World, main args w = .exit 1 w1 ∧ w1.files = w.files ∧ w.sameEnvironment w1)
    ∧ badOption "-h" = true ∧ badOption "-?" = true ∧ badOption "--help" = true
    ∧ badOption "-nh" = true ∧ badOption "--version" = true ∧ badOption "-x" = true
    ∧ badOption "-nr" = false := by
  refine ⟨?_, by decide, by decide, by decide, by decide, by decide, by decide, by decide⟩
  rcases herr with h | h
  · subst h
    exact ⟨_, rfl, rfl, ⟨rfl, rfl, rfl, rfl, rfl⟩⟩
  · have hfill : filledSlots { cmd := "", restart := false } w = 0 := by
      simp [filledSlots, htimer]
    obtain ⟨w1, e, s⟩ := parseArgs_exits args { cmd := "", restart := false } w
      (fun _ t ht => htok t ht) (by rw [hfill]; exact h)
    exact ⟨w1, by rw [main, e, Outcome.bind_exit], s.1, s⟩

theorem usage_errors_exit_witness :
    demoWorld.timer = ""
    ∧ (∀ t, commandToken ["start", "foo", "-r", "--help"] = some t → t.length ≤ 65)
    ∧ (["start", "foo", "-r", "--help"] = ([] : List String)
        ∨ ["start", "foo", "-r", "--help"].any badOption = true
        ∨ extraArgument ["start", "foo", "-r", "--help"] = true)
    ∧ ∃ w1 : World, main ["start", "foo", "-r", "--help"] demoWorld = .exit 1 w1
        ∧ w1.files = demoWorld.files ∧ demoWorld.sameEnvironment w1 :=
  ⟨rfl, fun t ht => by cases ht; decide, Or.inr (Or.inl (by decide)),
    (usage_errors_exit ["start", "foo", "-r", "--help"] demoWorld rfl
      (fun t ht => by cases ht; decide) (Or.inr (Or.inl (by decide)))).1⟩

/-! ## C17: what the unknown command does -/

/-- C17, as stated, fails in two ways.  With a third non-option argument the run never
reaches the dispatch: `elapsed foo a b` has no option error and the command token `foo`, and it
ends in `exit(1)` on `Unexpected argument: b`.  With a command token of 64 characters `cmd` is
left without terminator, the `%s` of the message reads past the array, and the run has no
defined meaning. -/
theorem unknown_command_counterexample :
    (["foo", "a", "b"].any badOption = false ∧ commandToken ["foo", "a", "b"] = some "foo"
      ∧ main ["foo", "a", "b"] demoWorld
          = .exit 1 ({ demoWorld with timer := "a" }.print
              "Unexpected argument: b (Terminated, see -h for help)\n"))
    ∧ ([longToken].any badOption = false ∧ commandToken [longToken] = some longToken
      ∧ longToken.length = 64 ∧ main [longToken] demoWorld = .undefined) :=
  ⟨⟨by decide, by decide, rfl⟩, ⟨by decide, by decide, by decide, rfl⟩⟩

/-- C17, amended. For an argument vector with no option error and no argument beyond the
command and the timer name, whose command token has at most 63 characters and, upper-cased,
is none of `START`, `SHOW`, `STOP`, a process that starts with an empty `timer` prints
`Unknown command: <TOKEN> (Terminated, see -h for help)` with the upper-cased token and nothing
else, leaves the file system and the clock untouched, and returns 0 from `main`, so that the
exit status is 0. -/
theorem unknown_command_returns (args : List String) (w : World) (tok : String)
    (htimer : w.timer = "") (hopt : args.any badOption = false)
    (hextra : extraArgument args = false) (htok : commandToken args = some tok)
    (hlen : tok.length ≤ 63)
    (hcmd : upperCased tok ≠ "START" ∧ upperCased tok ≠ "SHOW" ∧ upperCased tok ≠ "STOP") :
    ∃ w1 : World, main args w = .ret 0 w1
      ∧ (main args w).status = some 0
      ∧ w1.out = w.out ++ ("Unknown command: " ++ upperCased tok
          ++ " (Terminated, see -h for help)\n")
      ∧ w1.files = w.files ∧ w.sameEnvironment w1 := by
  obtain ⟨w0, e, s, o⟩ := main_unknown_command args w tok htimer hopt hextra htok hlen hcmd
  refine ⟨_, e, by rw [e]; rfl, ?_, s.1, s⟩
  show w0.out ++ _ = _
  rw [o]

theorem unknown_command_returns_witness :
    demoWorld.timer = "" ∧ ["-n", "pause", "foo"].any badOption = false
    ∧ extraArgument ["-n", "pause", "foo"] = false
    ∧ commandToken ["-n", "pause", "foo"] = some "pause" ∧ ("pause" : String).length ≤ 63
    ∧ (upperCased "pause" ≠ "START" ∧ upperCased "pause" ≠ "SHOW"
        ∧ upperCased "pause" ≠ "STOP")
    ∧ ∃ w1 : World, main ["-n", "pause", "foo"] demoWorld = .ret 0 w1
      ∧ (main ["-n", "pause", "foo"] demoWorld).status = some 0
      ∧ w1.out = demoWorld.out ++ ("Unknown command: " ++ upperCased "pause"
          ++ " (Terminated, see -h for help)\n")
      ∧ w1.files = demoWorld.files ∧ demoWorld.sameEnvironment w1 :=
  ⟨rfl, by decide, by decide, by decide, by decide, by decide,
    unknown_command_returns ["-n", "pause", "foo"] demoWorld "pause" rfl (by decide) (by decide)
      (by decide) (by decide) (by decide)⟩

/-! ## Upper-casing and case folding -/

set_option maxRecDepth 100000 in
theorem toNat_ofNat_small : ∀ m < 128, (Char.ofNat m).toNat = m := by decide

theorem toUpper_toLower (c : Char) : c.toLower.toUpper = c.toUpper := by
  by_cases hu : c.toNat ≥ 65 ∧ c.toNat ≤ 90
  · have hl : c.toLower = Char.ofNat (c.toNat + 32) := by
      simp only [Char.toLower, hu, and_self, if_true]
    have hn : (Char.ofNat (c.toNat + 32)).toNat = c.toNat + 32 :=
      toNat_ofNat_small _ (by omega)
    have h1 : c.toLower.toUpper = Char.ofNat (c.toNat + 32 - 32) := by
      have hr : c.toNat + 32 ≥ 97 ∧ c.toNat + 32 ≤ 122 := by omega
      rw [hl]
      unfold Char.toUpper
      simp only [hn]
      rw [if_pos hr]
    have h2 : c.toUpper = c := by
      have : ¬ (c.toNat ≥ 97 ∧ c.toNat ≤ 122) := by omega
      simp only [Char.toUpper, this, if_false]
    rw [h1, h2, Nat.add_sub_cancel, Char.ofNat_toNat]
  · have hl : c.toLower = c := by simp only [Char.toLower, hu, if_false]
    rw [hl]

theorem upperCased_of_sameUnderCaseFolding (a b : String) (h : sameUnderCaseFolding a b) :
    upperCased a = upperCased b := by
  have h1 : ∀ cs : List Char, cs.map Char.toUpper = (cs.map Char.toLower).map Char.toUpper := by
    intro cs
    rw [List.map_map]
    exact List.map_congr_left fun c _ => (toUpper_toLower c).symm
  unfold upperCased
  rw [h1 a.data, h1 b.data, h]

theorem length_of_sameUnderCaseFolding (a b : String) (h : sameUnderCaseFolding a b) :
    a.length = b.length := by
  have := congrArg List.length h
  simpa using this

theorem toUpper_ascii (c : Char) :
    (97 ≤ c.toNat ∧ c.toNat ≤ 122 → c.toUpper.toNat = c.toNat - 32)
    ∧ (¬ (97 ≤ c.toNat ∧ c.toNat ≤ 122) → c.toUpper = c) := by
  constructor
  · intro h
    have h' : c.toNat ≥ 97 ∧ c.toNat ≤ 122 := h
    simp only [Char.toUpper, h', and_self, if_true]
    exact toNat_ofNat_small _ (by omega)
  · intro h
    have h' : ¬ (c.toNat ≥ 97 ∧ c.toNat ≤ 122) := h
    simp only [Char.toUpper, h', if_false]

/-! ## Moving arguments in the argument vector -/

theorem parseArgs_token_congr (post : List String) (tok tok' : String)
    (ht : ¬ tok.data.head? = some '-') (ht' : ¬ tok'.data.head? = some '-')
    (hup : upcase (some tok) = upcase (some tok')) :
    ∀ (pre : List String), (∀ a ∈ pre, isOption a = true ∨ a = "") →
    ∀ (l : Locals) (w : World), l.cmd.data.isEmpty = true →
      parseArgs (pre ++ tok :: post) l w = parseArgs (pre ++ tok' :: post) l w := by
  intro pre
  induction pre with
  | nil =>
    intro _ l w hcmd
    rw [List.nil_append, List.nil_append, parseArgs_cons, parseArgs_cons]
    simp only [if_neg ht, if_neg ht', if_pos hcmd, hup]
  | cons a pre ih =>
    intro hpre l w hcmd
    have ih' := ih fun b hb => hpre b (List.mem_cons_of_mem _ hb)
    rw [List.cons_append, List.cons_append, parseArgs_cons, parseArgs_cons]
    rcases hpre a (List.mem_cons_self _ _) with ha | ha
    · have hopt : a.data.head? = some '-' := by simpa [isOption] using ha
      rw [if_pos hopt, if_pos hopt]
      split_ifs
      · rfl
      · rfl
      · exact Outcome.bind_congr _ _ _ fun r w1 _ => ih' _ w1 hcmd
    · subst ha
      have hopt : ¬ ("" : String).data.head? = some '-' := by decide
      rw [if_neg hopt, if_neg hopt, if_pos hcmd, if_pos hcmd]
      have hu : upcase (some "") = some "" := by decide
      rw [hu]
      exact ih' _ w rfl

theorem parseArgs_rn (rest : List String) (l : Locals) (w : World) :
    parseArgs ("-rn" :: rest) l w = parseArgs rest { l with restart := true } w.quiet := rfl

theorem head_ne_dash_of_fold (tok word : String)
    (hword : word = "start" ∨ word = "show" ∨ word = "stop")
    (hfold : sameUnderCaseFolding tok word) : ¬ tok.data.head? = some '-' := by
  intro h
  have hs : (word.data.map Char.toLower).head? = some 's' := by
    rcases hword with rfl | rfl | rfl <;> rfl
  unfold sameUnderCaseFolding at hfold
  rw [← hfold] at hs
  cases hd : tok.data with
  | nil => rw [hd] at h; cases h
  | cons c cs =>
    rw [hd] at h hs
    simp only [List.head?_cons, Option.some.injEq] at h
    subst h
    simp only [List.map_cons, List.head?_cons, Option.some.injEq] at hs
    revert hs
    decide

/-- C13. Let the command token `tok`, of at most 63 characters, equal `start`, `show` or `stop`
under ASCII case folding, and let only options and empty arguments stand before it.  Then for
every world (file system, clock, globals) and all remaining arguments the run of `main` is the
same as with the lower-case word in its place: same output, same exit status, same final
world.  `upcase` turns a string that fits its buffer into the string of the same length whose
characters are the upper-case forms: `a`..`z` move down by 32, every other character stays. -/
theorem command_case_insensitive (pre post : List String) (tok word : String) (w : World)
    (hword : word = "start" ∨ word = "show" ∨ word = "stop")
    (hfold : sameUnderCaseFolding tok word) (hlen : tok.length ≤ 63)
    (hpre : ∀ a ∈ pre, isOption a = true ∨ a = "") :
    main (pre ++ tok :: post) w = main (pre ++ word :: post) w
    ∧ upcase (some tok) = upcase (some word)
    ∧ (upcase (some tok) = some "START" ∨ upcase (some tok) = some "SHOW"
        ∨ upcase (some tok) = some "STOP")
    ∧ (∀ s : String, s.length ≤ 65 → ∃ u : String, upcase (some s) = some u
        ∧ u.length = s.length ∧ u.data = s.data.map Char.toUpper)
    ∧ (∀ c : Char, (97 ≤ c.toNat ∧ c.toNat ≤ 122 → c.toUpper.toNat = c.toNat - 32)
        ∧ (¬ (97 ≤ c.toNat ∧ c.toNat ≤ 122) → c.toUpper = c)) := by
  have hwl : word.length ≤ 5 := by rcases hword with rfl | rfl | rfl <;> decide
  have htl : tok.length = word.length := length_of_sameUnderCaseFolding tok word hfold
  have htok : tok.length ≤ MAXINPUTLENGTH + 1 := Nat.le_trans hlen (by decide)
  have hup : upcase (some tok) = upcase (some word) := by
    rw [upcase_some tok htok,
      upcase_some word (by simp only [MAXINPUTLENGTH]; omega),
      upperCased_of_sameUnderCaseFolding tok word hfold]
  have hwd : ¬ word.data.head? = some '-' := by rcases hword with rfl | rfl | rfl <;> decide
  have hparse := parseArgs_token_congr post tok word (head_ne_dash_of_fold tok word hword hfold)
    hwd hup pre hpre { cmd := "", restart := false } w rfl
  refine ⟨?_, hup, ?_, ?_, toUpper_ascii⟩
  · have hl : (pre ++ tok :: post).length = (pre ++ word :: post).length := by simp
    rw [main, main, hparse, hl]
  · rw [hup]
    rcases hword with rfl | rfl | rfl
    · exact Or.inl (by decide)
    · exact Or.inr (Or.inl (by decide))
    · exact Or.inr (Or.inr (by decide))
  · intro s hs
    exact ⟨upperCased s, upcase_some s (by simp only [MAXINPUTLENGTH]; omega),
      upperCased_length s, rfl⟩

theorem command_case_insensitive_witness :
    (("show" : String) = "start" ∨ ("show" : String) = "show" ∨ ("show" : String) = "stop")
    ∧ sameUnderCaseFolding "sHoW" "show" ∧ ("sHoW" : String).length ≤ 63
    ∧ (∀ a ∈ ["-n", ""], isOption a = true ∨ a = "")
    ∧ main (["-n", ""] ++ "sHoW" :: ["foo"]) storedWorld
        = main (["-n", ""] ++ "show" :: ["foo"]) storedWorld
    ∧ upcase (some "sHoW") = some "SHOW" := by
  have h := command_case_insensitive ["-n", ""] ["foo"] "sHoW" "show" storedWorld
    (by decide) (by decide) (by decide) (by decide)
  exact ⟨by decide, by decide, by decide, by decide, h.1, by decide⟩

/-! ## C16: the options `-n` and `-r` -/

end Elapsed
